import Mathlib

set_option maxHeartbeats 1000000

namespace PyLSV2

/-! Shallow embedding of `pyLSV2/client.py` (class `LSV2`).  The TCP
transport is replaced by a script of pending control responses stored in
the session state; every telegram the client sends is appended to a trace.
Python exceptions are modelled by an error outcome that carries no value
but leaves the session state observable alongside it. -/

/-- Python-level errors raised while running the client model: transport
failures, `struct` packing and unpacking errors, `TypeError` and a plain
`Exception` with a message. -/
inductive PyErr where
  | transport
  | structErr
  | typeErr
  | exn (msg : String)
deriving DecidableEq, Repr

/-- Outcome of running a piece of client code: a normal value or a raised
Python exception. -/
inductive POut (α : Type) where
  | ok (a : α)
  | err (e : PyErr)
deriving DecidableEq, Repr

/-- One pending response of the control: response tag and payload bytes. -/
abbrev ScriptEntry := String × List Nat

/-- One telegram sent by the client: command tag, payload bytes and whether
a response was awaited. -/
abbrev SentEntry := String × List Nat × Bool

/-- Modelled from the spec: the decoded system-parameter record produced by
`decode_system_parameters` (`misc.py` is not part of the sources).  The
fields are exactly the dictionary keys `client.py` reads. -/
structure SysPar where
  Marker_Start : Nat
  Markers : Nat
  Input_Start : Nat
  Inputs : Nat
  Output_Start : Nat
  Outputs : Nat
  Counter_Start : Nat
  Counters : Nat
  Timer_Start : Nat
  Timers : Nat
  Word_Start : Nat
  Words : Nat
  String_Start : Nat
  Strings : Nat
  String_Length : Nat
  Input_Word_Start : Nat
  Input : Nat
  Output_Word_Start : Nat
  Output_Words : Nat
  Max_Block_Length : Nat
deriving DecidableEq, Repr

/-- Session state of one `LSV2` object, together with the response script
standing in for the TCP connection and the trace of sent telegrams. -/
structure Sess where
  bufferSize : Nat
  activeLogins : List String
  knownLogins : List String
  knownSysCmd : List Nat
  secureFileSend : Bool
  lastErrorCode : Option (Nat × Nat)
  sysPar : Option SysPar
  controlType : Nat
  localIsDir : Bool
  localFile : Option (List Nat)
  script : List ScriptEntry
  trace : List SentEntry
deriving DecidableEq, Repr

/-- Sequential composition: Python statements after a raised exception do
not run, but the session state at the time of the raise is kept. -/
def pbind {α β : Type} (x : POut α × Sess) (f : α → Sess → POut β × Sess) :
    POut β × Sess :=
  match x with
  | (.ok a, s) => f a s
  | (.err e, s) => (.err e, s)

@[simp]
theorem pbind_ok {α β : Type} (a : α) (s : Sess) (f : α → Sess → POut β × Sess) :
    pbind (.ok a, s) f = f a s := rfl

@[simp]
theorem pbind_err {α β : Type} (e : PyErr) (s : Sess) (f : α → Sess → POut β × Sess) :
    pbind (.err e, s) f = (.err e, s) := rfl

/-- Modelled from the spec: login-name strings of `const.Login`
(`const.py` is not part of the sources; the spec says each value is the
literal ASCII login name). -/
def Login_INSPECT : String := "INSPECT"

/-- Modelled from the spec: the FILETRANSFER login name. -/
def Login_FILETRANSFER : String := "FILETRANSFER"

/-- Modelled from the spec: the MONITOR login name. -/
def Login_MONITOR : String := "MONITOR"

/-- Modelled from the spec: the DNC login name. -/
def Login_DNC : String := "DNC"

/-- Modelled from the spec: the PLCDEBUG login name. -/
def Login_PLCDEBUG : String := "PLCDEBUG"

/-- Modelled from the spec: the DATA login name. -/
def Login_DATA : String := "DATA"

/-- Modelled from the spec: the full `Login` enumeration. -/
def allLogins : List String :=
  [Login_INSPECT, Login_FILETRANSFER, Login_MONITOR, Login_DNC,
   Login_PLCDEBUG, Login_DATA]

/-- Modelled from the spec: `ParCCC` subcommand codes (`const.py` is not in
the sources; the spec fixes the enumeration, not the numeric values, which
only need to be distinct u16 codes here). -/
def ParCCC_SET_BUF512 : Nat := 3

/-- Modelled from the spec: set-buffer-1024 subcommand code. -/
def ParCCC_SET_BUF1024 : Nat := 4

/-- Modelled from the spec: set-buffer-2048 subcommand code. -/
def ParCCC_SET_BUF2048 : Nat := 5

/-- Modelled from the spec: set-buffer-3072 subcommand code. -/
def ParCCC_SET_BUF3072 : Nat := 6

/-- Modelled from the spec: set-buffer-4096 subcommand code. -/
def ParCCC_SET_BUF4096 : Nat := 7

/-- Modelled from the spec: secure-file-send subcommand code. -/
def ParCCC_SECURE_FILE_SEND : Nat := 12

/-- Modelled from the spec: screen-dump subcommand code. -/
def ParCCC_SCREENDUMP : Nat := 27

/-- Modelled from the spec: the full `ParCCC` enumeration. -/
def allParCCC : List Nat :=
  [ParCCC_SET_BUF512, ParCCC_SET_BUF1024, ParCCC_SET_BUF2048,
   ParCCC_SET_BUF3072, ParCCC_SET_BUF4096, ParCCC_SECURE_FILE_SEND,
   ParCCC_SCREENDUMP]

/-- Modelled from the spec: `ParRRI` subselector for the first displayed
error (a u16 code; the numeric value only needs to be distinct). -/
def ParRRI_FIRST_ERROR : Nat := 27

/-- Modelled from the spec: `ParRRI` subselector for the next error. -/
def ParRRI_NEXT_ERROR : Nat := 28

/-- Modelled from the spec: the `LSV2Err.T_ER_NO_NEXT_ERROR` error code, the
sentinel that ends the error enumeration normally. -/
def T_ER_NO_NEXT_ERROR : Nat := 90

/-- Modelled from the spec: the `MODE_BINARY` transfer-mode byte. -/
def MODE_BINARY : Nat := 1

/-- Modelled from the spec: `LLLSV2Com.DEFAULT_BUFFER_SIZE`, the pre-handshake
default buffer size of 256 bytes. -/
def DEFAULT_BUFFER_SIZE : Nat := 256

/-- Modelled from the spec: the closed allow-list of binary file-name
extensions (`BIN_FILES` of `const.py`: CNC binary program, calibration
binaries, bitmap, archive, compiled PLC and similar formats). -/
def binExtensions : List String :=
  [".bmp", ".bin", ".zip", ".elf", ".plc", ".sys", ".exe", ".bmx"]

/-- Modelled from the spec: `is_file_binary` of `misc.py` classifies a file
name as binary when its extension is in the closed allow-list. -/
def isFileBinary (name : String) : Bool :=
  binExtensions.any (fun e => e.data.isSuffixOf name.data)

/-- Bytes of an ASCII string as produced by `map(ord, text)`. -/
def strBytes (t : String) : List Nat := t.data.map Char.toNat

/-- Path normalisation on outbound paths: `path.replace("/", PATH_SEP)`
with the protocol path separator backslash. -/
def replaceSlash (p : String) : String :=
  String.mk (p.data.map (fun c => if c = '/' then '\\' else c))

/-- Value of `struct.pack("!H", n)` for an in-range code (all call sites
pass small enumeration constants below 65536). -/
def pack16 (n : Nat) : List Nat := [n / 256 % 256, n % 256]

/-- Value of `struct.pack("!L", n)` for an in-range value. -/
def pack32 (n : Nat) : List Nat :=
  [n / 16777216 % 256, n / 65536 % 256, n / 256 % 256, n % 256]

/-- `struct.pack("!L", n)`: raises for values that do not fit 32 bits. -/
def packL (n : Nat) (s : Sess) : POut (List Nat) × Sess :=
  if n < 4294967296 then (.ok (pack32 n), s) else (.err .structErr, s)

/-- `struct.pack("!B", n)`: raises for values above 255. -/
def packB (n : Nat) (s : Sess) : POut (List Nat) × Sess :=
  if n ≤ 255 then (.ok [n], s) else (.err .structErr, s)

/-- The session state after an awaited telegram: the command is on the
trace and the consumed response is gone from the script. -/
def afterTg (cmd : String) (payload : List Nat) (rest : List ScriptEntry)
    (s : Sess) : Sess :=
  { s with trace := s.trace ++ [(cmd, payload, true)], script := rest }

/-- `self._llcom.telegram(cmd, payload, wait_for_response=True)`: record the
sent telegram, then deliver the next scripted response; an exhausted script
is a transport failure. -/
def telegramWait (cmd : String) (payload : List Nat) (s : Sess) :
    POut (String × List Nat) × Sess :=
  match s.script with
  | [] => (.err .transport, { s with trace := s.trace ++ [(cmd, payload, true)] })
  | rc :: rest => (.ok rc, afterTg cmd payload rest s)

/-- `self._llcom.telegram(cmd, payload, wait_for_response=False)`: record the
sent telegram and return at once without consuming a response. -/
def telegramNoWait (cmd : String) (payload : List Nat) (s : Sess) :
    POut Unit × Sess :=
  (.ok (), { s with trace := s.trace ++ [(cmd, payload, false)] })

/-- `LSV2._decode_error`: `struct.unpack("!BB", content)` requires exactly a
two-byte error envelope and raises otherwise. -/
def decodeErrorPM (content : List Nat) (s : Sess) : POut (Nat × Nat) × Sess :=
  match content with
  | [a, b] => (.ok (a, b), s)
  | _ => (.err .structErr, s)

/-- Result of `LSV2._send_recive`: payload content, Python `True`, or
Python `False`. -/
inductive SRRes where
  | content (bs : List Nat)
  | isTrue
  | isFalse
deriving DecidableEq, Repr

/-- Python truthiness of a `_send_recive` result. -/
def SRRes.truthy : SRRes → Bool
  | .content _ => true
  | .isTrue => true
  | .isFalse => false

/-- `LSV2._send_recive(command, expected_response, payload)`.  With no
expected response the telegram is fire-and-forget and the result is `True`.
Otherwise the response tag is compared against the expected tag; `T_ER`
records `last_error` from the two payload bytes, any other unexpected tag
clears `last_error`. -/
def sendRecive (command : String) (expected : Option String)
    (payload : List Nat) (s : Sess) : POut SRRes × Sess :=
  match expected with
  | none =>
      pbind (telegramNoWait command payload s) fun _ s₁ => (.ok .isTrue, s₁)
  | some exp =>
      pbind (telegramWait command payload s) fun rc s₁ =>
        if rc.1 = exp then
          if rc.2 ≠ [] then (.ok (.content rc.2), s₁) else (.ok .isTrue, s₁)
        else if rc.1 = "T_ER" then
          pbind (decodeErrorPM rc.2 s₁) fun ab s₂ =>
            (.ok .isFalse, { s₂ with lastErrorCode := some ab })
        else
          (.ok .isFalse, { s₁ with lastErrorCode := none })

/-- `LSV2._send_recive_ack(command, payload)`: `True` exactly on a `T_OK`
response; a `T_ER` response is decoded (for the log) but `last_error` is
not touched. -/
def sendReciveAck (command : String) (payload : List Nat) (s : Sess) :
    POut Bool × Sess :=
  pbind (telegramWait command payload s) fun rc s₁ =>
    if rc.1 = "T_OK" then (.ok true, s₁)
    else if rc.1 = "T_ER" then
      pbind (decodeErrorPM rc.2 s₁) fun _ s₂ => (.ok false, s₂)
    else (.ok false, s₁)

/-- Payload of `A_LG` built by `LSV2.login`: login name, NUL, optional
password, NUL. -/
def loginPayload (lg : String) (password : Option String) : List Nat :=
  strBytes lg ++ [0] ++
    (match password with
     | some pw => strBytes pw ++ [0]
     | none => [])

/-- `LSV2.login(login, password)`: no-op when already held, rejected when
not in the known-logins set, otherwise an `A_LG` exchange whose `T_OK`
acknowledgement appends the level to the active list. -/
def login (lg : String) (password : Option String) (s : Sess) :
    POut Bool × Sess :=
  if lg ∈ s.activeLogins then (.ok true, s)
  else if lg ∉ s.knownLogins then (.ok false, s)
  else
    pbind (sendReciveAck "A_LG" (loginPayload lg password) s) fun ack s₁ =>
      if ack then (.ok true, { s₁ with activeLogins := s₁.activeLogins ++ [lg] })
      else (.ok false, s₁)

/-- Payload of `A_LO` built by `LSV2.logout`: NUL-terminated name, or empty
for a drop-all logout. -/
def logoutPayload (lg : Option String) : List Nat :=
  match lg with
  | some l => strBytes l ++ [0]
  | none => []

/-- `LSV2.logout(login)`: a null target drops all levels with a bare
`A_LO`; a known, active target is dropped after its `A_LO` acknowledgement;
a known but inactive target succeeds without a telegram; an unknown target
fails without a telegram. -/
def logout (lg : Option String) (s : Sess) : POut Bool × Sess :=
  if (match lg with | some l => decide (l ∈ s.knownLogins) | none => true) then
    if (match lg with | some l => decide (l ∈ s.activeLogins) | none => true) then
      pbind (sendReciveAck "A_LO" (logoutPayload lg) s) fun ack s₁ =>
        if ack then
          match lg with
          | some l => (.ok true, { s₁ with activeLogins := s₁.activeLogins.erase l })
          | none => (.ok true, { s₁ with activeLogins := [] })
        else (.ok false, s₁)
    else (.ok true, s)
  else (.ok false, s)

/-- `LSV2.set_system_command(command, parameter)`: known commands are sent
as `C_CC` with a big-endian u16 subcommand and optional NUL-terminated
parameter; unknown commands fail without a telegram. -/
def setSystemCommand (command : Nat) (parameter : Option String) (s : Sess) :
    POut Bool × Sess :=
  if command ∈ s.knownSysCmd then
    pbind
      (sendReciveAck "C_CC"
        (pack16 command ++
          (match parameter with
           | some p => strBytes p ++ [0]
           | none => [])) s)
      fun ack s₁ => if ack then (.ok true, s₁) else (.ok false, s₁)
  else (.ok false, s)

/-- The safe-mode allow-list of logins set by `LSV2.__init__`. -/
def safeLogins : List String := [Login_INSPECT, Login_FILETRANSFER, Login_MONITOR]

/-- The safe-mode allow-list of system commands set by `LSV2.__init__`. -/
def safeSysCmds : List Nat :=
  [ParCCC_SET_BUF1024, ParCCC_SET_BUF512, ParCCC_SET_BUF2048,
   ParCCC_SET_BUF3072, ParCCC_SET_BUF4096, ParCCC_SECURE_FILE_SEND,
   ParCCC_SCREENDUMP]

/-- `LSV2.__init__(hostname, port, timeout, safe_mode, ...)` restricted to
the session fields of the model, with the response script and the state of
the one local file of interest supplied by the environment. -/
def initLSV2 (safeMode : Bool) (localIsDir : Bool) (localFile : Option (List Nat))
    (script : List ScriptEntry) : Sess :=
  { bufferSize := DEFAULT_BUFFER_SIZE
    activeLogins := []
    knownLogins := if safeMode then safeLogins else allLogins
    knownSysCmd := if safeMode then safeSysCmds else allParCCC
    secureFileSend := false
    lastErrorCode := none
    sysPar := none
    controlType := 0
    localIsDir := localIsDir
    localFile := localFile
    script := script
    trace := [] }

/-- Buffer-size selection of `LSV2._configure_connection` (the cascade of
interval tests on `max_block_length`): the chosen size together with the
`C_CC` subcommand to issue, or `none` for the silent 256-byte fallback;
a maximum below 256 has no valid choice. -/
def selectBuffer (maxBlockLength : Nat) : Option (Nat × Option Nat) :=
  if maxBlockLength ≥ 4096 then some (4096, some ParCCC_SET_BUF4096)
  else if 3072 ≤ maxBlockLength ∧ maxBlockLength < 4096 then
    some (3072, some ParCCC_SET_BUF3072)
  else if 2048 ≤ maxBlockLength ∧ maxBlockLength < 3072 then
    some (2048, some ParCCC_SET_BUF2048)
  else if 1024 ≤ maxBlockLength ∧ maxBlockLength < 2048 then
    some (1024, some ParCCC_SET_BUF1024)
  else if 512 ≤ maxBlockLength ∧ maxBlockLength < 1024 then
    some (512, some ParCCC_SET_BUF512)
  else if 256 ≤ maxBlockLength ∧ maxBlockLength < 512 then
    some (256, none)
  else none

/-- The buffer-negotiation part of `LSV2._configure_connection` (the code
after the control-type mapping): raise on an undecidable size, silently
take 256, or issue the chosen `C_CC` subcommand and raise when it is not
acknowledged. -/
def configureBuffer (maxBlockLength : Nat) (s : Sess) : POut Unit × Sess :=
  match selectBuffer maxBlockLength with
  | none => (.err (.exn "unknown buffer size"), s)
  | some (size, none) => (.ok (), { s with bufferSize := size })
  | some (size, some cmd) =>
      pbind (setSystemCommand cmd none s) fun ack s₁ =>
        if ack then (.ok (), { s₁ with bufferSize := size })
        else (.err (.exn "error in communication while setting buffer size"), s₁)

/-- Modelled from the spec: the decoded filesystem-entry record of
`decode_file_system_info` (`misc.py` is not in the sources): u32 BE size,
u32 BE timestamp, attribute byte, NUL-terminated name; the spec leaves the
variant-dependent header widths open, one width is used here. -/
structure FileInfo where
  size : Nat
  timestamp : Nat
  attributes : Nat
  name : List Nat
deriving DecidableEq, Repr

/-- Big-endian value of a byte list. -/
def beVal (bs : List Nat) : Nat := bs.foldl (fun a b => a * 256 + b) 0

/-- Modelled from the spec: `decode_file_system_info` applied to a response
payload (the control variant is accepted but the spec does not fix how it
changes the header width, so a single layout is decoded). -/
def decodeFileSystemInfo (variant : Nat) (bs : List Nat) : FileInfo :=
  { size := beVal (bs.take 4)
    timestamp := beVal ((bs.drop 4).take 4)
    attributes := (bs.drop 8).headD 0
    name := ((bs.drop 9).takeWhile (fun b => b ≠ 0)) ++ [variant * 0] }

/-- `LSV2.get_file_info(remote_file_path)`: an `R_FI` exchange; content is
decoded as a filesystem entry, a falsy result reports an absent file, and
an empty `S_FI` payload would make Python decode `True` and raise. -/
def getFileInfo (remoteFilePath : String) (s : Sess) :
    POut (Option FileInfo) × Sess :=
  pbind
    (sendRecive "R_FI" (some "S_FI")
      (strBytes (replaceSlash remoteFilePath) ++ [0]) s)
    fun r s₁ =>
      match r with
      | .content bs => (.ok (some (decodeFileSystemInfo s₁.controlType bs)), s₁)
      | .isTrue => (.err .typeErr, s₁)
      | .isFalse => (.ok none, s₁)

/-- Text-mode rewriting of a downloaded packet:
`content.replace(b"\x00", b"\r\n")`. -/
def replaceNulCRLF (content : List Nat) : List Nat :=
  content.flatMap (fun b => if b = 0 then [13, 10] else [b])

/-- Bytes written to the local file for one `S_FL` payload: verbatim in
binary mode, with every NUL replaced by CR LF otherwise. -/
def writeMode (binaryMode : Bool) (content : List Nat) : List Nat :=
  if binaryMode then content else replaceNulCRLF content

/-- The pull loop of `LSV2.recive_file`, structured over the remaining
response script (which the session's script field always equals at every
recursive call): send a bare `T_OK`, append each further `S_FL` payload to
the local file, stop at `T_FD`, fail on anything else (decoding the error
envelope on `T_ER`/`T_BD`). -/
def reciveLoopGo (binaryMode : Bool) : List ScriptEntry → Sess → POut Bool × Sess
  | [], s => (.err .transport, { s with trace := s.trace ++ [("T_OK", [], true)] })
  | (resp, content) :: rest, s =>
      let s₁ : Sess :=
        { s with trace := s.trace ++ [("T_OK", [], true)], script := rest }
      if resp = "S_FL" then
        reciveLoopGo binaryMode rest
          { s₁ with
            localFile := some (s₁.localFile.getD [] ++ writeMode binaryMode content) }
      else if resp = "T_FD" then (.ok true, s₁)
      else if resp = "T_ER" ∨ resp = "T_BD" then
        pbind (decodeErrorPM content s₁) fun _ s₂ => (.ok false, s₂)
      else (.ok false, s₁)

/-- The pull loop of `LSV2.recive_file` on a session state. -/
def reciveLoop (binaryMode : Bool) (s : Sess) : POut Bool × Sess :=
  reciveLoopGo binaryMode s.script s

/-- `LSV2.recive_file(remote_path, local_path, override_file, binary_mode)`.
The remote file must exist; an existing local file is deleted only under
`override_file`; the mode byte of `R_FL` is `MODE_BINARY` when the flag is
set or the remote name has a binary extension; the local file is opened
for writing before the first response is inspected, and only the
`binary_mode` flag chooses between verbatim and text writing. -/
def reciveFile (remotePath : String) (overrideFile : Bool) (binaryMode : Bool)
    (s : Sess) : POut Bool × Sess :=
  pbind (getFileInfo (replaceSlash remotePath) s) fun info s₀ =>
    match info with
    | none => (.ok false, s₀)
    | some _ =>
        if s₀.localFile.isSome ∧ ¬ overrideFile then (.ok false, s₀)
        else
          pbind
            (telegramWait "R_FL"
              (strBytes (replaceSlash remotePath) ++ [0] ++
                [if binaryMode || isFileBinary (replaceSlash remotePath) then
                   MODE_BINARY
                 else 0])
              (if s₀.localFile.isSome then { s₀ with localFile := none } else s₀))
            fun rc s₂ =>
              if rc.1 = "S_FL" then
                reciveLoop binaryMode
                  { s₂ with localFile := some (writeMode binaryMode rc.2) }
              else if rc.1 = "T_ER" ∨ rc.1 = "T_BD" then
                pbind (decodeErrorPM rc.2 { s₂ with localFile := some ([] : List Nat) })
                  fun ab s₄ =>
                    (.ok false, { s₄ with lastErrorCode := some ab })
              else
                (.ok false,
                 { s₂ with localFile := some ([] : List Nat), lastErrorCode := none })

/-- The chunk loop of `LSV2.send_file`: read `bufferSize - 10` bytes at a
time (the buffer size is not modified inside the loop, so it is captured
once), send each chunk tagged `S_FL`, and require a `T_OK` for each; an
empty read ends the loop. -/
def sendChunksLoop (bs : Nat) (data : List Nat) (s : Sess) : POut Bool × Sess :=
  if h : data.take (bs - 10) = [] then (.ok true, s)
  else
    pbind (telegramWait "S_FL" (data.take (bs - 10)) s) fun rc s₁ =>
      if rc.1 = "T_OK" then sendChunksLoop bs (data.drop (bs - 10)) s₁
      else if rc.1 = "T_ER" then
        pbind (decodeErrorPM rc.2 s₁) fun _ s₂ => (.ok false, s₂)
      else (.ok false, s₁)
termination_by data.length
decreasing_by
  have hd : data ≠ [] := by
    intro hnil
    simp [hnil] at h
  have hb : bs - 10 ≠ 0 := by
    intro hz
    simp [hz] at h
  have hl : 0 < data.length := List.length_pos.mpr hd
  simp only [List.length_drop]
  omega

/-- The transfer part of `LSV2.send_file` (from the payload construction at
the `C_FL` exchange on; the preceding lines only resolve the remote
directory and file name, which enter here as the full remote path).  After
a `T_OK` for `C_FL` the local file is sent in chunks; at end of file a
`T_FD` is sent, awaiting a `T_OK` only when secure file send is active. -/
def sendFilePayload (remoteFullPath localPath : String) (binaryMode : Bool) :
    List Nat :=
  strBytes remoteFullPath ++ [0] ++
    [if binaryMode || isFileBinary localPath then MODE_BINARY else 0]

def sendFileCore (remoteFullPath localPath : String) (localData : List Nat)
    (binaryMode : Bool) (s : Sess) : POut Bool × Sess :=
  pbind
    (telegramWait "C_FL" (sendFilePayload remoteFullPath localPath binaryMode) s)
    fun rc s₁ =>
    if rc.1 = "T_OK" then
      pbind (sendChunksLoop s₁.bufferSize localData s₁) fun sent s₂ =>
        if sent then
          if s₂.secureFileSend then
            pbind (sendRecive "T_FD" (some "T_OK") [] s₂) fun r s₃ =>
              if r.truthy then (.ok true, s₃) else (.ok false, s₃)
          else
            pbind (sendRecive "T_FD" none [] s₂) fun r s₃ =>
              if r.truthy then (.ok true, s₃) else (.ok false, s₃)
        else (.ok false, s₂)
    else if rc.1 = "T_ER" then
      pbind (decodeErrorPM rc.2 s₁) fun _ s₂ => (.ok false, s₂)
    else (.ok false, s₁)

/-- Modelled from the spec: `decode_system_parameters` of `misc.py` (not in
the sources): a fixed sequence of big-endian counters; the spec does not
fix each field width, so consecutive 2-byte fields are decoded. -/
def decodeSystemParameters (bs : List Nat) : SysPar :=
  let f : Nat → Nat := fun i => beVal ((bs.drop (2 * i)).take 2)
  { Marker_Start := f 0, Markers := f 1, Input_Start := f 2, Inputs := f 3
    Output_Start := f 4, Outputs := f 5, Counter_Start := f 6, Counters := f 7
    Timer_Start := f 8, Timers := f 9, Word_Start := f 10, Words := f 11
    String_Start := f 12, Strings := f 13, String_Length := f 14
    Input_Word_Start := f 15, Input := f 16, Output_Word_Start := f 17
    Output_Words := f 18, Max_Block_Length := f 19 }

/-- `LSV2.get_system_parameter()`: return the cached record, otherwise an
`R_PR` exchange decoded into the cache; a falsy exchange yields `False`
(here `none`), an empty `S_PR` payload would make Python decode `True` and
raise. -/
def getSystemParameter (s : Sess) : POut (Option SysPar) × Sess :=
  match s.sysPar with
  | some sp => (.ok (some sp), s)
  | none =>
      pbind (sendRecive "R_PR" (some "S_PR") [] s) fun r s₁ =>
        match r with
        | .content bs =>
            (.ok (some (decodeSystemParameters bs)),
             { s₁ with sysPar := some (decodeSystemParameters bs) })
        | .isTrue => (.err .typeErr, s₁)
        | .isFalse => (.ok none, s₁)

/-- The memory types of `const.MemoryType` dispatched by
`LSV2.read_plc_memory`. -/
inductive MemoryType where
  | MARKER | INPUT | OUTPUT | COUNTER | TIMER | BYTE | WORD | DWORD
  | STRING | INPUT_WORD | OUTPUT_WORD
deriving DecidableEq, Repr

/-- The unpack format strings used by `LSV2.read_plc_memory`. -/
inductive UnpackKind where
  | ubool
  | u8
  | u16le
  | u32le
  | ustr (n : Nat)
deriving DecidableEq, Repr

/-- A decoded PLC value: boolean, number, or string bytes. -/
inductive PlcValue where
  | b (x : Bool)
  | n (x : Nat)
  | s (bs : List Nat)
deriving DecidableEq, Repr

/-- Byte width consumed by `struct.unpack` for each format. -/
def kindWidth : UnpackKind → Nat
  | .ubool => 1
  | .u8 => 1
  | .u16le => 2
  | .u32le => 4
  | .ustr n => n

/-- Value produced by `struct.unpack` on a buffer of the exact width. -/
def interpKind : UnpackKind → List Nat → PlcValue
  | .ubool, bs => .b (bs.headD 0 ≠ 0)
  | .u8, bs => .n (bs.headD 0)
  | .u16le, bs => .n (bs.headD 0 + 256 * (bs.drop 1).headD 0)
  | .u32le, bs =>
      .n (bs.headD 0 + 256 * (bs.drop 1).headD 0 + 65536 * (bs.drop 2).headD 0 +
          16777216 * (bs.drop 3).headD 0)
  | .ustr _, bs => .s ((bs.reverse.dropWhile (fun b => b = 0)).reverse)

/-- `struct.unpack(fmt, buffer)`: succeeds only on a buffer of exactly the
format's width. -/
def unpackValue (kind : UnpackKind) (bs : List Nat) : Option PlcValue :=
  if bs.length = kindWidth kind then some (interpKind kind bs) else none

/-- The body of the decode loop of `LSV2.read_plc_memory`, iterated the
fixed number of times Python's `range(0, len(result), mem_byte_count)`
yields: unpack each `mem_byte_count`-byte slice (a short final slice is an
unpack error). -/
def unpackSlicesGo (kind : UnpackKind) (mbc : Nat) :
    Nat → List Nat → Option (List PlcValue)
  | 0, _ => some []
  | iters + 1, bs =>
      match unpackValue kind (bs.take mbc) with
      | none => none
      | some v => (unpackSlicesGo kind mbc iters (bs.drop mbc)).map (fun vs => v :: vs)

/-- The decode loop `for i in range(0, len(result), mem_byte_count)` of
`LSV2.read_plc_memory`: the range has `⌈len/mbc⌉` steps, and a zero step
would be a Python `ValueError`. -/
def unpackSlices (kind : UnpackKind) (mbc : Nat) (bs : List Nat) :
    Option (List PlcValue) :=
  if mbc = 0 then none
  else unpackSlicesGo kind mbc ((bs.length + mbc - 1) / mbc) bs

/-- Per-type parameters of `LSV2.read_plc_memory`: start address, maximum
element count (a rational, because the DWORD maximum is a Python float
division `Words / 4`), element byte count and unpack format. -/
def memTypeParams (sp : SysPar) : MemoryType → Nat × Rat × Nat × UnpackKind
  | .MARKER => (sp.Marker_Start, sp.Markers, 1, .ubool)
  | .INPUT => (sp.Input_Start, sp.Inputs, 1, .ubool)
  | .OUTPUT => (sp.Output_Start, sp.Outputs, 1, .ubool)
  | .COUNTER => (sp.Counter_Start, sp.Counters, 1, .ubool)
  | .TIMER => (sp.Timer_Start, sp.Timers, 1, .ubool)
  | .BYTE => (sp.Word_Start, (sp.Words * 2 : Nat), 1, .u8)
  | .WORD => (sp.Word_Start, sp.Words, 2, .u16le)
  | .DWORD => (sp.Word_Start, (sp.Words : Rat) / 4, 4, .u32le)
  | .STRING => (sp.String_Start, sp.Strings, sp.String_Length, .ustr sp.String_Length)
  | .INPUT_WORD => (sp.Input_Word_Start, sp.Input, 2, .u16le)
  | .OUTPUT_WORD => (sp.Output_Word_Start, sp.Output_Words, 2, .u16le)

/-- Result of `LSV2.read_plc_memory`: the list of values or Python `False`. -/
inductive PlcRes where
  | values (vs : List PlcValue)
  | isFalse
deriving DecidableEq, Repr

/-- The STRING branch of `LSV2.read_plc_memory`: one `R_MB` request per
element at `start + advanced_address + i * String_Length`, each answer
unpacked as a full-length string (a truthy non-content answer would make
Python unpack `True` and raise). -/
def readStringLoop (baseAddr strLen : Nat) (idxs : List Nat)
    (acc : List PlcValue) (s : Sess) : POut PlcRes × Sess :=
  match idxs with
  | [] => (.ok (.values acc), s)
  | i :: rest =>
      pbind (packL (baseAddr + i * strLen) s) fun addr s₁ =>
      pbind (packB strLen s₁) fun cnt s₂ =>
      pbind (sendRecive "R_MB" (some "S_MB") (addr ++ cnt) s₂) fun r s₃ =>
        match r with
        | .content bs =>
            match unpackValue (.ustr strLen) bs with
            | some v => readStringLoop baseAddr strLen rest (acc ++ [v]) s₃
            | none => (.err .structErr, s₃)
        | .isTrue => (.err .typeErr, s₃)
        | .isFalse => (.ok .isFalse, s₃)

/-- `LSV2.read_plc_memory(address, mem_type, count)`: fetch system
parameters when not cached, attempt a PLCDEBUG login (result ignored),
dispatch the per-type parameters, reject a count above the per-type
maximum or above 255, then read either one element per request (STRING,
with the advanced start address of the source) or all elements in a single
`R_MB` request addressed at `start_address + address` with a one-byte
total byte count. -/
def readPlcMemory (address : Nat) (memType : MemoryType) (count : Nat)
    (s : Sess) : POut PlcRes × Sess :=
  pbind
    (match s.sysPar with
     | none =>
         pbind (getSystemParameter s) fun _ s₀ => (.ok (), s₀)
     | some _ => (.ok (), s)) fun _ s₀ =>
  pbind (login Login_PLCDEBUG none s₀) fun _ s₁ =>
    match s₁.sysPar with
    | none => (.err .typeErr, s₁)
    | some sp =>
        if (count : Rat) > (memTypeParams sp memType).2.1 then
          (.err (.exn "maximum number of values exceeded"), s₁)
        else if count > 255 then
          (.err (.exn "payload too large"), s₁)
        else
          if memType = .STRING then
            readStringLoop
              ((memTypeParams sp memType).1 +
                (address + (count - 1) * (memTypeParams sp memType).2.2.1))
              (memTypeParams sp memType).2.2.1 (List.range count) [] s₁
          else
            pbind (packL ((memTypeParams sp memType).1 + address) s₁) fun addr s₂ =>
            pbind (packB (count * (memTypeParams sp memType).2.2.1) s₂) fun cnt s₃ =>
            pbind (sendRecive "R_MB" (some "S_MB") (addr ++ cnt) s₃) fun r s₄ =>
              match r with
              | .content bs =>
                  match unpackSlices (memTypeParams sp memType).2.2.2
                      (memTypeParams sp memType).2.2.1 bs with
                  | some vs => (.ok (.values vs), s₄)
                  | none => (.err .structErr, s₄)
              | .isTrue => (.err .typeErr, s₄)
              | .isFalse => (.ok .isFalse, s₄)

/-- Modelled from the spec: a decoded error message of
`decode_error_message` (`misc.py` is not in the sources): the code pair
followed by NUL-terminated text segments. -/
structure ErrMsg where
  code1 : Nat
  code2 : Nat
  segs : List (List Nat)
deriving DecidableEq, Repr

/-- Modelled from the spec: `decode_error_message` applied to an `S_RI`
payload. -/
def decodeErrorMessage (bs : List Nat) : ErrMsg :=
  { code1 := bs.headD 0
    code2 := (bs.drop 1).headD 0
    segs := (bs.drop 2).splitOn 0 }

/-- A `_send_recive` exchange with an expected response always consumes
exactly one scripted response when it returns normally. -/
theorem sendRecive_script_shrink (cmd exp : String) (payload : List Nat)
    (s : Sess) (r : SRRes) (s₁ : Sess)
    (h : sendRecive cmd (some exp) payload s = (.ok r, s₁)) :
    s₁.script.length < s.script.length := by
  unfold sendRecive telegramWait at h
  cases hs : s.script with
  | nil => simp [hs] at h
  | cons rc rest =>
      simp only [hs, pbind_ok] at h
      split at h
      · split at h <;>
          (rw [Prod.mk.injEq] at h
           obtain ⟨h1, h2⟩ := h
           subst h2
           simp [afterTg])
      · split at h
        · unfold decodeErrorPM at h
          split at h
          · simp only [pbind_ok] at h
            rw [Prod.mk.injEq] at h
            obtain ⟨h1, h2⟩ := h
            subst h2
            simp [afterTg]
          · simp at h
        · rw [Prod.mk.injEq] at h
          obtain ⟨h1, h2⟩ := h
          subst h2
          simp [afterTg]

/-- The `while result:` loop of `LSV2.get_error_messages`: while the last
`NEXT_ERROR` exchange was truthy, decode and append the message and issue
the next `NEXT_ERROR` request (a truthy non-content result would make
Python decode `True` and raise). -/
def nextErrorLoop (msgs : List ErrMsg) (r : SRRes) (s : Sess) :
    POut (List ErrMsg) × Sess :=
  match r with
  | .isFalse => (.ok msgs, s)
  | .isTrue => (.err .typeErr, s)
  | .content bs =>
      match hsr : sendRecive "R_RI" (some "S_RI") (pack16 ParRRI_NEXT_ERROR) s with
      | (.ok r', s') => nextErrorLoop (msgs ++ [decodeErrorMessage bs]) r' s'
      | (.err e, s') => (.err e, s')
termination_by s.script.length
decreasing_by exact sendRecive_script_shrink _ _ _ _ _ _ hsr

/-- Result of `LSV2.get_error_messages`: a message list or Python `False`. -/
inductive PyListRes where
  | list (msgs : List ErrMsg)
  | pyFalse
deriving DecidableEq, Repr

/-- `LSV2.get_error_messages()`: a DNC login attempt (result ignored), a
`FIRST_ERROR` exchange and, if it was truthy, `NEXT_ERROR` exchanges until
a falsy one; afterwards the second byte of `last_error` is inspected
(subscripting `None` raises) and the collected messages are returned
either way.  A falsy `FIRST_ERROR` returns the empty message list when the
recorded error code is the no-next-error sentinel, and `False` otherwise. -/
def getErrorMessages (s : Sess) : POut PyListRes × Sess :=
  pbind (login Login_DNC none s) fun _ s₀ =>
  pbind (sendRecive "R_RI" (some "S_RI") (pack16 ParRRI_FIRST_ERROR) s₀) fun r s₁ =>
    match r with
    | .content bs =>
        pbind (sendRecive "R_RI" (some "S_RI") (pack16 ParRRI_NEXT_ERROR) s₁)
          fun r2 s₂ =>
        pbind (nextErrorLoop [decodeErrorMessage bs] r2 s₂) fun msgs s₃ =>
          match s₃.lastErrorCode with
          | none => (.err .typeErr, s₃)
          | some _ => (.ok (.list msgs), s₃)
    | .isTrue => (.err .typeErr, s₁)
    | .isFalse =>
        match s₁.lastErrorCode with
        | none => (.err .typeErr, s₁)
        | some p =>
            if p.2 = T_ER_NO_NEXT_ERROR then (.ok (.list []), s₁)
            else (.ok .pyFalse, s₁)

@[simp]
theorem afterTg_script (cmd : String) (payload : List Nat)
    (rest : List ScriptEntry) (s : Sess) : (afterTg cmd payload rest s).script = rest := rfl

@[simp]
theorem afterTg_trace (cmd : String) (payload : List Nat)
    (rest : List ScriptEntry) (s : Sess) :
    (afterTg cmd payload rest s).trace = s.trace ++ [(cmd, payload, true)] := rfl

@[simp]
theorem afterTg_activeLogins (cmd : String) (payload : List Nat)
    (rest : List ScriptEntry) (s : Sess) :
    (afterTg cmd payload rest s).activeLogins = s.activeLogins := rfl

@[simp]
theorem afterTg_knownLogins (cmd : String) (payload : List Nat)
    (rest : List ScriptEntry) (s : Sess) :
    (afterTg cmd payload rest s).knownLogins = s.knownLogins := rfl

@[simp]
theorem afterTg_lastErrorCode (cmd : String) (payload : List Nat)
    (rest : List ScriptEntry) (s : Sess) :
    (afterTg cmd payload rest s).lastErrorCode = s.lastErrorCode := rfl

@[simp]
theorem afterTg_bufferSize (cmd : String) (payload : List Nat)
    (rest : List ScriptEntry) (s : Sess) :
    (afterTg cmd payload rest s).bufferSize = s.bufferSize := rfl

@[simp]
theorem afterTg_secureFileSend (cmd : String) (payload : List Nat)
    (rest : List ScriptEntry) (s : Sess) :
    (afterTg cmd payload rest s).secureFileSend = s.secureFileSend := rfl

@[simp]
theorem afterTg_localFile (cmd : String) (payload : List Nat)
    (rest : List ScriptEntry) (s : Sess) :
    (afterTg cmd payload rest s).localFile = s.localFile := rfl

@[simp]
theorem afterTg_sysPar (cmd : String) (payload : List Nat)
    (rest : List ScriptEntry) (s : Sess) :
    (afterTg cmd payload rest s).sysPar = s.sysPar := rfl

/-- `_send_recive_ack` on a scripted `T_OK` response. -/
theorem sendReciveAck_tok (cmd : String) (payload : List Nat) (c : List Nat)
    (rest : List ScriptEntry) (s : Sess) (hs : s.script = ("T_OK", c) :: rest) :
    sendReciveAck cmd payload s = (.ok true, afterTg cmd payload rest s) := by
  simp [sendReciveAck, telegramWait, hs]

/-- `_send_recive_ack` on a scripted two-byte `T_ER` response. -/
theorem sendReciveAck_ter (cmd : String) (payload : List Nat) (a b : Nat)
    (rest : List ScriptEntry) (s : Sess)
    (hs : s.script = ("T_ER", [a, b]) :: rest) :
    sendReciveAck cmd payload s = (.ok false, afterTg cmd payload rest s) := by
  simp [sendReciveAck, telegramWait, decodeErrorPM, hs]

/-- `_send_recive_ack` on any other scripted response tag. -/
theorem sendReciveAck_other (cmd : String) (payload : List Nat) (resp : String)
    (c : List Nat) (rest : List ScriptEntry) (s : Sess)
    (hs : s.script = (resp, c) :: rest) (h1 : resp ≠ "T_OK") (h2 : resp ≠ "T_ER") :
    sendReciveAck cmd payload s = (.ok false, afterTg cmd payload rest s) := by
  simp [sendReciveAck, telegramWait, hs, h1, h2]

/-- Every normal return of `_send_recive_ack` consumes exactly the first
scripted response, lands in the after-telegram state, and is `True` exactly
when that response was `T_OK`. -/
theorem sendReciveAck_cases (cmd : String) (payload : List Nat) (s : Sess)
    (b : Bool) (s₁ : Sess) (h : sendReciveAck cmd payload s = (.ok b, s₁)) :
    ∃ rc rest, s.script = rc :: rest ∧ s₁ = afterTg cmd payload rest s ∧
      (b = true ↔ rc.1 = "T_OK") := by
  unfold sendReciveAck telegramWait at h
  cases hs : s.script with
  | nil => simp [hs] at h
  | cons rc rest =>
      simp only [hs, pbind_ok] at h
      refine ⟨rc, rest, rfl, ?_⟩
      split at h
      · rename_i htok
        rw [Prod.mk.injEq] at h
        obtain ⟨h1, h2⟩ := h
        injection h1 with h1
        subst h1
        exact ⟨h2.symm, by simp [htok]⟩
      · rename_i htok
        split at h
        · unfold decodeErrorPM at h
          split at h
          · simp only [pbind_ok] at h
            rw [Prod.mk.injEq] at h
            obtain ⟨h1, h2⟩ := h
            injection h1 with h1
            subst h1
            exact ⟨h2.symm, by simp [htok]⟩
          · simp at h
        · rw [Prod.mk.injEq] at h
          obtain ⟨h1, h2⟩ := h
          injection h1 with h1
          subst h1
          exact ⟨h2.symm, by simp [htok]⟩

/-- C1: the active-logins set gains a level only immediately after a
successful `A_LG` acknowledgement for that level and loses a level only
immediately after a successful `A_LO` acknowledgement (all levels on a
null-target logout); after every successful `login(X)` the level `X` is
held, after every successful `logout(X)` it is not, and a successful
null-target logout leaves no level held. -/
theorem claim_C1 (lg : String) (pw : Option String) (tgt : Option String)
    (s : Sess) (hnd : s.activeLogins.Nodup) :
    (∀ b s₁, login lg pw s = (.ok b, s₁) →
       s₁.activeLogins = s.activeLogins ∨
         (b = true ∧ ∃ c rest, s.script = ("T_OK", c) :: rest ∧
           s₁.activeLogins = s.activeLogins ++ [lg] ∧
           s₁.trace = s.trace ++ [("A_LG", loginPayload lg pw, true)])) ∧
    (∀ s₁, login lg pw s = (.ok true, s₁) → lg ∈ s₁.activeLogins) ∧
    (∀ b s₁, login lg pw s = (.ok b, s₁) → s₁.activeLogins.Nodup) ∧
    (∀ b s₁, logout tgt s = (.ok b, s₁) →
       s₁.activeLogins = s.activeLogins ∨
         (b = true ∧ ∃ c rest, s.script = ("T_OK", c) :: rest ∧
           s₁.trace = s.trace ++ [("A_LO", logoutPayload tgt, true)] ∧
           s₁.activeLogins = (match tgt with
             | some l => s.activeLogins.erase l
             | none => []))) ∧
    (∀ l s₁, logout (some l) s = (.ok true, s₁) → l ∉ s₁.activeLogins) ∧
    (∀ s₁, logout none s = (.ok true, s₁) → s₁.activeLogins = []) := by
  have loginCases : ∀ b s₁, login lg pw s = (.ok b, s₁) →
      (s₁ = s ∧ (b = true → lg ∈ s.activeLogins)) ∨
      (∃ rc rest, s.script = rc :: rest ∧ lg ∉ s.activeLogins ∧
        (b = true ↔ rc.1 = "T_OK") ∧
        (b = true →
          s₁ = { afterTg "A_LG" (loginPayload lg pw) rest s with
                   activeLogins := s.activeLogins ++ [lg] }) ∧
        (b = false → s₁ = afterTg "A_LG" (loginPayload lg pw) rest s)) := by
    intro b s₁ h
    unfold login at h
    by_cases ha : lg ∈ s.activeLogins
    · rw [if_pos ha] at h
      rw [Prod.mk.injEq] at h
      obtain ⟨h1, h2⟩ := h
      injection h1 with h1
      subst h1
      exact .inl ⟨h2.symm, fun _ => ha⟩
    · rw [if_neg ha] at h
      by_cases hk : lg ∈ s.knownLogins
      · rw [if_neg (by simp [hk])] at h
        rcases hA : sendReciveAck "A_LG" (loginPayload lg pw) s with ⟨o, s'⟩
        rw [hA] at h
        cases o with
        | err e => simp at h
        | ok ack =>
            simp only [pbind_ok] at h
            obtain ⟨rc, rest, hs, hafter, hiff⟩ := sendReciveAck_cases _ _ _ _ _ hA
            subst hafter
            refine .inr ⟨rc, rest, hs, ha, ?_⟩
            cases ack with
            | true =>
                rw [if_pos rfl] at h
                rw [Prod.mk.injEq] at h
                obtain ⟨h1, h2⟩ := h
                injection h1 with h1
                subst h1
                refine ⟨by simpa using hiff, fun _ => ?_, by simp⟩
                rw [← h2]
                simp [afterTg]
            | false =>
                rw [if_neg (by simp)] at h
                rw [Prod.mk.injEq] at h
                obtain ⟨h1, h2⟩ := h
                injection h1 with h1
                subst h1
                exact ⟨by simpa using hiff, by simp, fun _ => h2.symm⟩
      · rw [if_pos (by simp [hk])] at h
        rw [Prod.mk.injEq] at h
        obtain ⟨h1, h2⟩ := h
        injection h1 with h1
        subst h1
        exact .inl ⟨h2.symm, by simp⟩
  have logoutCases : ∀ (tg : Option String) b s₁, logout tg s = (.ok b, s₁) →
      (s₁ = s ∧ b = true ∧
         (match tg with | some l => l ∉ s.activeLogins | none => False)) ∨
      (s₁ = s ∧ b = false) ∨
      (∃ rc rest, s.script = rc :: rest ∧ (b = true ↔ rc.1 = "T_OK") ∧
        (b = true →
          s₁ = { afterTg "A_LO" (logoutPayload tg) rest s with
                   activeLogins := (match tg with
                     | some l => s.activeLogins.erase l
                     | none => []) }) ∧
        (b = false → s₁ = afterTg "A_LO" (logoutPayload tg) rest s)) := by
    intro tg b s₁ h
    unfold logout at h
    cases tg with
    | none =>
        rw [if_pos (by simp), if_pos (by simp)] at h
        rcases hA : sendReciveAck "A_LO" (logoutPayload none) s with ⟨o, s'⟩
        rw [hA] at h
        cases o with
        | err e => simp at h
        | ok ack =>
            simp only [pbind_ok] at h
            obtain ⟨rc, rest, hs, hafter, hiff⟩ := sendReciveAck_cases _ _ _ _ _ hA
            subst hafter
            refine .inr (.inr ⟨rc, rest, hs, ?_⟩)
            cases ack with
            | true =>
                rw [if_pos rfl] at h
                rw [Prod.mk.injEq] at h
                obtain ⟨h1, h2⟩ := h
                injection h1 with h1
                subst h1
                exact ⟨by simpa using hiff, fun _ => by rw [← h2], by simp⟩
            | false =>
                rw [if_neg (by simp)] at h
                rw [Prod.mk.injEq] at h
                obtain ⟨h1, h2⟩ := h
                injection h1 with h1
                subst h1
                exact ⟨by simpa using hiff, by simp, fun _ => h2.symm⟩
    | some l =>
        by_cases hk : l ∈ s.knownLogins
        · rw [if_pos (by simpa using hk)] at h
          by_cases ha : l ∈ s.activeLogins
          · rw [if_pos (by simpa using ha)] at h
            rcases hA : sendReciveAck "A_LO" (logoutPayload (some l)) s with ⟨o, s'⟩
            rw [hA] at h
            cases o with
            | err e => simp at h
            | ok ack =>
                simp only [pbind_ok] at h
                obtain ⟨rc, rest, hs, hafter, hiff⟩ := sendReciveAck_cases _ _ _ _ _ hA
                subst hafter
                refine .inr (.inr ⟨rc, rest, hs, ?_⟩)
                cases ack with
                | true =>
                    rw [if_pos rfl] at h
                    rw [Prod.mk.injEq] at h
                    obtain ⟨h1, h2⟩ := h
                    injection h1 with h1
                    subst h1
                    refine ⟨by simpa using hiff, fun _ => ?_, by simp⟩
                    rw [← h2]
                    simp [afterTg]
                | false =>
                    rw [if_neg (by simp)] at h
                    rw [Prod.mk.injEq] at h
                    obtain ⟨h1, h2⟩ := h
                    injection h1 with h1
                    subst h1
                    exact ⟨by simpa using hiff, by simp, fun _ => h2.symm⟩
          · rw [if_neg (by simpa using ha)] at h
            rw [Prod.mk.injEq] at h
            obtain ⟨h1, h2⟩ := h
            injection h1 with h1
            subst h1
            exact .inl ⟨h2.symm, rfl, ha⟩
        · rw [if_neg (by simpa using hk)] at h
          rw [Prod.mk.injEq] at h
          obtain ⟨h1, h2⟩ := h
          injection h1 with h1
          subst h1
          exact .inr (.inl ⟨h2.symm, rfl⟩)
  refine ⟨?_, ?_, ?_, ?_, ?_, ?_⟩
  · intro b s₁ h
    rcases loginCases b s₁ h with ⟨hz, _⟩ | ⟨rc, rest, hs, ha, hiff, htr, hfa⟩
    · exact .inl (by rw [hz])
    · cases b with
      | false => exact .inl (by rw [hfa rfl]; simp)
      | true =>
          right
          obtain ⟨rt, rβ⟩ := rc
          refine ⟨rfl, rβ, rest, ?_, ?_, ?_⟩
          · rw [hs]
            have : rt = "T_OK" := by simpa using hiff.mp rfl
            rw [this]
          · rw [htr rfl]
          · rw [htr rfl]
            simp [afterTg]
  · intro s₁ h
    rcases loginCases true s₁ h with ⟨hz, hm⟩ | ⟨rc, rest, hs, ha, hiff, htr, hfa⟩
    · rw [hz]; exact hm rfl
    · rw [htr rfl]; simp
  · intro b s₁ h
    rcases loginCases b s₁ h with ⟨hz, _⟩ | ⟨rc, rest, hs, ha, hiff, htr, hfa⟩
    · rw [hz]; exact hnd
    · cases b with
      | false => rw [hfa rfl]; simpa using hnd
      | true =>
          rw [htr rfl]
          simp only [afterTg]
          rw [List.nodup_append]
          exact ⟨hnd, List.nodup_singleton lg,
            fun x hx hy => ha (by simpa using (List.mem_singleton.mp (by simpa using hy)) ▸ hx)⟩
  · intro b s₁ h
    rcases logoutCases tgt b s₁ h with ⟨hz, _, _⟩ | ⟨hz, _⟩ | ⟨rc, rest, hs, hiff, htr, hfa⟩
    · exact .inl (by rw [hz])
    · exact .inl (by rw [hz])
    · cases b with
      | false => exact .inl (by rw [hfa rfl]; simp)
      | true =>
          right
          obtain ⟨rt, rβ⟩ := rc
          refine ⟨rfl, rβ, rest, ?_, ?_, ?_⟩
          · rw [hs]
            have : rt = "T_OK" := by simpa using hiff.mp rfl
            rw [this]
          · rw [htr rfl]
            simp [afterTg]
          · rw [htr rfl]
  · intro l s₁ h
    rcases logoutCases (some l) true s₁ h with ⟨hz, _, hm⟩ | ⟨hz, hb⟩ | ⟨rc, rest, hs, hiff, htr, hfa⟩
    · rw [hz]; exact hm
    · cases hb
    · rw [htr rfl]
      simp only [afterTg]
      intro hmem
      exact absurd rfl ((List.Nodup.mem_erase_iff hnd).mp hmem).1
  · intro s₁ h
    rcases logoutCases none true s₁ h with ⟨hz, _, hm⟩ | ⟨hz, hb⟩ | ⟨rc, rest, hs, hiff, htr, hfa⟩
    · exact absurd hm (by simp)
    · cases hb
    · rw [htr rfl]

/-- Witness for C1: in a fresh safe-mode session with one scripted `T_OK`,
a successful `login(INSPECT)` leaves INSPECT held. -/
theorem claim_C1_witness :
    Login_INSPECT ∈
      ((login Login_INSPECT none
          (initLSV2 true false none [("T_OK", [])])).2).activeLogins :=
  (claim_C1 Login_INSPECT none none (initLSV2 true false none [("T_OK", [])])
      (by simp [initLSV2])).2.1 _ (by decide)

/-- C7: with safe mode active (the constructor default), a login for any
level outside the safe allow-list returns `False` without sending a
telegram and leaves the held levels unchanged; moreover logins preserve the
invariant that every held level is a known level. -/
theorem claim_C7 (lg : String) (pw : Option String) (s : Sess)
    (hknown : s.knownLogins = safeLogins)
    (hsub : ∀ x ∈ s.activeLogins, x ∈ s.knownLogins)
    (hlg : lg ∉ safeLogins) :
    login lg pw s = (.ok false, s) ∧
    (∀ lg' pw' b s₁, login lg' pw' s = (.ok b, s₁) →
       ∀ x ∈ s₁.activeLogins, x ∈ s₁.knownLogins) := by
  constructor
  · have ha : lg ∉ s.activeLogins := fun hmem => hlg (hknown ▸ hsub lg hmem)
    have hk : lg ∉ s.knownLogins := fun hmem => hlg (hknown ▸ hmem)
    unfold login
    rw [if_neg ha, if_pos (by simp [hk])]
  · intro lg' pw' b s₁ h
    unfold login at h
    by_cases ha : lg' ∈ s.activeLogins
    · rw [if_pos ha] at h
      rw [Prod.mk.injEq] at h
      obtain ⟨h1, h2⟩ := h
      rw [← h2]
      exact hsub
    · rw [if_neg ha] at h
      by_cases hk : lg' ∈ s.knownLogins
      · rw [if_neg (by simp [hk])] at h
        rcases hA : sendReciveAck "A_LG" (loginPayload lg' pw') s with ⟨o, s'⟩
        rw [hA] at h
        cases o with
        | err e => simp at h
        | ok ack =>
            simp only [pbind_ok] at h
            obtain ⟨rc, rest, hs, hafter, hiff⟩ := sendReciveAck_cases _ _ _ _ _ hA
            subst hafter
            cases ack with
            | true =>
                rw [if_pos rfl] at h
                rw [Prod.mk.injEq] at h
                obtain ⟨h1, h2⟩ := h
                rw [← h2]
                intro x hx
                simp only [afterTg] at hx ⊢
                rcases List.mem_append.mp hx with hx | hx
                · exact hsub x hx
                · rwa [List.mem_singleton.mp hx]
            | false =>
                rw [if_neg (by simp)] at h
                rw [Prod.mk.injEq] at h
                obtain ⟨h1, h2⟩ := h
                rw [← h2]
                exact hsub
      · rw [if_pos (by simp [hk])] at h
        rw [Prod.mk.injEq] at h
        obtain ⟨h1, h2⟩ := h
        rw [← h2]
        exact hsub

/-- Witness for C7: a fresh safe-mode session rejects `login(PLCDEBUG)`
with `False`, an unchanged session and no telegram on the trace. -/
theorem claim_C7_witness :
    login Login_PLCDEBUG none (initLSV2 true false none []) =
      (.ok false, initLSV2 true false none []) :=
  (claim_C7 Login_PLCDEBUG none (initLSV2 true false none [])
      (by simp [initLSV2]) (by simp [initLSV2]) (by decide)).1

/-- Counterexample to C2: `_send_recive_ack` answered by `T_ER` does not
record `last_error` (it stays `None`), and a successful `_send_recive`
after a recorded error leaves `last_error` defined rather than undefined. -/
theorem claim_C2_cex :
    (sendReciveAck "C_DC" [65, 0] (initLSV2 true false none [("T_ER", [1, 5])]) =
       (.ok false,
        afterTg "C_DC" [65, 0] [] (initLSV2 true false none [("T_ER", [1, 5])])) ∧
     (afterTg "C_DC" [65, 0] []
        (initLSV2 true false none [("T_ER", [1, 5])])).lastErrorCode = none) ∧
    (sendRecive "R_PR" (some "S_PR") []
        { initLSV2 true false none [("S_PR", [1])] with
            lastErrorCode := some (1, 5) }).2.lastErrorCode = some (1, 5) := by
  refine ⟨⟨?_, ?_⟩, ?_⟩ <;> rfl

/-- C2 (amended): `last_error` is only written by `_send_recive` — set to
the first two payload bytes on a `T_ER` answer, cleared to `None` on any
other unexpected tag, and left unchanged by a successful exchange — while
`_send_recive_ack` never modifies `last_error` at all. -/
theorem claim_C2 (cmd exp : String) (payload : List Nat) (s : Sess)
    (resp : String) (c : List Nat) (rest : List ScriptEntry)
    (hs : s.script = (resp, c) :: rest) :
    (resp = exp →
       (sendRecive cmd (some exp) payload s).2.lastErrorCode = s.lastErrorCode) ∧
    (∀ a b, resp = "T_ER" → resp ≠ exp → c = [a, b] →
       (sendRecive cmd (some exp) payload s).2.lastErrorCode = some (a, b)) ∧
    (resp ≠ exp → resp ≠ "T_ER" →
       (sendRecive cmd (some exp) payload s).2.lastErrorCode = none) ∧
    (sendReciveAck cmd payload s).2.lastErrorCode = s.lastErrorCode := by
  refine ⟨?_, ?_, ?_, ?_⟩
  · intro he
    unfold sendRecive telegramWait
    rw [hs]
    simp only [pbind_ok, he, if_pos rfl]
    by_cases hc : c = [] <;> simp [hc]
  · intro a b hr hne hc
    unfold sendRecive telegramWait
    rw [hs]
    subst hr hc
    simp only [pbind_ok, if_neg hne]
    simp [decodeErrorPM]
  · intro hne hr
    unfold sendRecive telegramWait
    rw [hs]
    simp only [pbind_ok]
    simp [hne, hr]
  · unfold sendReciveAck telegramWait
    rw [hs]
    simp only [pbind_ok]
    split
    · simp
    · split
      · unfold decodeErrorPM
        split
        · simp
        · simp
      · simp

/-- Witness for the amended C2: a concrete unexpected-tag exchange clears
`last_error` to `None`. -/
theorem claim_C2_witness :
    (sendRecive "R_RI" (some "S_RI") []
        (initLSV2 true false none [("T_XX", [1])])).2.lastErrorCode = none :=
  (claim_C2 "R_RI" "S_RI" [] (initLSV2 true false none [("T_XX", [1])])
      "T_XX" [1] [] rfl).2.2.1 (by decide) (by decide)

/-- The buffer sizes the negotiation may select. -/
def bufSizes : List Nat := [256, 512, 1024, 2048, 3072, 4096]

/-- The `C_CC` set-buffer subcommand corresponding to each selectable
buffer size (none for the silent 256-byte fallback). -/
def bufCmd (B : Nat) : Option Nat :=
  if B = 4096 then some ParCCC_SET_BUF4096
  else if B = 3072 then some ParCCC_SET_BUF3072
  else if B = 2048 then some ParCCC_SET_BUF2048
  else if B = 1024 then some ParCCC_SET_BUF1024
  else if B = 512 then some ParCCC_SET_BUF512
  else none

/-- Inversion of the buffer-size selection cascade: any selected size is a
supported size at most the declared maximum, is the largest such size, and
comes with its corresponding set-buffer subcommand. -/
theorem selectBuffer_inv (mbl B : Nat) (c : Option Nat)
    (h : selectBuffer mbl = some (B, c)) :
    B ∈ bufSizes ∧ B ≤ mbl ∧ (∀ b ∈ bufSizes, b ≤ mbl → b ≤ B) ∧ c = bufCmd B := by
  unfold selectBuffer at h
  split_ifs at h with h1 h2 h3 h4 h5 h6 <;>
    (rw [Option.some.injEq, Prod.mk.injEq] at h
     obtain ⟨hB, hc⟩ := h
     subst hB
     subst hc
     refine ⟨by decide, by omega, ?_, by decide⟩
     intro b hb
     fin_cases hb <;> omega)

/-- C3: the negotiated buffer size is the largest supported size at most
the declared maximum block length; a maximum below 256 is fatal; for sizes
of 512 and above the corresponding `C_CC` subcommand is issued (a refused
subcommand being fatal), while 256 is selected silently without any
telegram; any successfully negotiated buffer size is a supported size not
exceeding the declared maximum. -/
theorem claim_C3 (mbl : Nat) (s : Sess) (hcmd : s.knownSysCmd = safeSysCmds) :
    (256 ≤ mbl → ∃ B c, selectBuffer mbl = some (B, c) ∧ B ∈ bufSizes ∧
       B ≤ mbl ∧ (∀ b ∈ bufSizes, b ≤ mbl → b ≤ B) ∧ c = bufCmd B) ∧
    (mbl < 256 → selectBuffer mbl = none ∧
       (configureBuffer mbl s).1 = .err (.exn "unknown buffer size")) ∧
    (∀ B, selectBuffer mbl = some (B, none) →
       configureBuffer mbl s = (.ok (), { s with bufferSize := B })) ∧
    (∀ B cmd, selectBuffer mbl = some (B, some cmd) →
       (∀ c rest, s.script = ("T_OK", c) :: rest →
          configureBuffer mbl s =
            (.ok (), { afterTg "C_CC" (pack16 cmd) rest s with bufferSize := B })) ∧
       (∀ resp c rest, s.script = (resp, c) :: rest → resp ≠ "T_OK" →
          ∃ e, (configureBuffer mbl s).1 = .err e)) ∧
    (∀ s₁, configureBuffer mbl s = (.ok (), s₁) →
       s₁.bufferSize ∈ bufSizes ∧ s₁.bufferSize ≤ mbl) := by
  have hcmd_mem : ∀ B cmd, selectBuffer mbl = some (B, some cmd) →
      cmd ∈ s.knownSysCmd := by
    intro B cmd h
    obtain ⟨hmem, hle, hmax, hbc⟩ := selectBuffer_inv mbl B (some cmd) h
    rw [hcmd]
    fin_cases hmem <;> simp_all [bufCmd, safeSysCmds] <;> omega
  refine ⟨?_, ?_, ?_, ?_, ?_⟩
  · intro hge
    unfold selectBuffer
    split_ifs with h1 h2 h3 h4 h5 h6
    · exact ⟨4096, _, rfl, by decide, by omega, fun b hb => by fin_cases hb <;> omega, by decide⟩
    · exact ⟨3072, _, rfl, by decide, by omega, fun b hb => by fin_cases hb <;> omega, by decide⟩
    · exact ⟨2048, _, rfl, by decide, by omega, fun b hb => by fin_cases hb <;> omega, by decide⟩
    · exact ⟨1024, _, rfl, by decide, by omega, fun b hb => by fin_cases hb <;> omega, by decide⟩
    · exact ⟨512, _, rfl, by decide, by omega, fun b hb => by fin_cases hb <;> omega, by decide⟩
    · exact ⟨256, _, rfl, by decide, by omega, fun b hb => by fin_cases hb <;> omega, by decide⟩
    · omega
  · intro hlt
    have hsel : selectBuffer mbl = none := by
      unfold selectBuffer
      split_ifs <;> first | omega | rfl
    exact ⟨hsel, by unfold configureBuffer; rw [hsel]⟩
  · intro B h
    unfold configureBuffer
    rw [h]
  · intro B cmd h
    have hmem := hcmd_mem B cmd h
    constructor
    · intro c rest hscript
      simp only [configureBuffer, h]
      unfold setSystemCommand
      rw [if_pos hmem]
      rw [sendReciveAck_tok "C_CC" _ c rest s hscript]
      simp [afterTg]
    · intro resp c rest hscript hresp
      simp only [configureBuffer, h]
      unfold setSystemCommand
      rw [if_pos hmem]
      by_cases hter : resp = "T_ER"
      · subst hter
        unfold sendReciveAck telegramWait
        rw [hscript]
        simp only [pbind_ok]
        rw [if_neg (by simpa using hresp)]
        rw [if_pos trivial]
        unfold decodeErrorPM
        match c with
        | [a, b] => exact ⟨.exn "error in communication while setting buffer size", by simp⟩
        | [] => exact ⟨.structErr, by simp⟩
        | [a] => exact ⟨.structErr, by simp⟩
        | a :: b :: x :: xs => exact ⟨.structErr, by simp⟩
      · rw [sendReciveAck_other "C_CC" _ resp c rest s hscript hresp hter]
        exact ⟨.exn "error in communication while setting buffer size", by simp⟩
  · intro s₁ h
    rcases hsel : selectBuffer mbl with _ | ⟨B, c⟩
    · unfold configureBuffer at h
      rw [hsel] at h
      simp at h
    · obtain ⟨hmem, hle, hmax, hbc⟩ := selectBuffer_inv mbl B c hsel
      match c, hsel with
      | none, hsel =>
          have hred : configureBuffer mbl s = (.ok (), { s with bufferSize := B }) := by
            unfold configureBuffer
            rw [hsel]
          rw [hred] at h
          rw [Prod.mk.injEq] at h
          obtain ⟨h1, h2⟩ := h
          rw [← h2]
          exact ⟨hmem, hle⟩
      | some cmd, hsel =>
          have hred : configureBuffer mbl s =
              pbind (setSystemCommand cmd none s) (fun ack s₂ =>
                if ack then (.ok (), { s₂ with bufferSize := B })
                else (.err (.exn "error in communication while setting buffer size"),
                      s₂)) := by
            unfold configureBuffer
            rw [hsel]
          rw [hred] at h
          rcases hA : setSystemCommand cmd none s with ⟨o, s'⟩
          rw [hA] at h
          cases o with
          | err e => simp at h
          | ok ack =>
              simp only [pbind_ok] at h
              cases ack with
              | true =>
                  rw [if_pos rfl] at h
                  rw [Prod.mk.injEq] at h
                  obtain ⟨h1, h2⟩ := h
                  rw [← h2]
                  exact ⟨hmem, hle⟩
              | false =>
                  rw [if_neg (by simp)] at h
                  simp at h

/-- Witness for C3: with a declared maximum of 4096 and a scripted `T_OK`
for the subcommand, the negotiated buffer size is 4096. -/
theorem claim_C3_witness :
    configureBuffer 4096 (initLSV2 true false none [("T_OK", [])]) =
      (.ok (),
       { afterTg "C_CC" (pack16 ParCCC_SET_BUF4096) []
           (initLSV2 true false none [("T_OK", [])]) with bufferSize := 4096 }) :=
  ((claim_C3 4096 (initLSV2 true false none [("T_OK", [])])
      (by rfl)).2.2.2.1 4096 ParCCC_SET_BUF4096 (by decide)).1 [] [] rfl

/-- `login` for a level that is neither active nor known fails without
touching the session. -/
theorem login_unknown (lg : String) (pw : Option String) (s : Sess)
    (h1 : lg ∉ s.activeLogins) (h2 : lg ∉ s.knownLogins) :
    login lg pw s = (.ok false, s) := by
  unfold login
  rw [if_neg h1, if_pos (by simp [h2])]

/-- `_send_recive` on the scripted expected response with a payload. -/
theorem sendRecive_exp (cmd exp : String) (payload c : List Nat)
    (rest : List ScriptEntry) (s : Sess) (hs : s.script = (exp, c) :: rest)
    (hc : c ≠ []) :
    sendRecive cmd (some exp) payload s =
      (.ok (.content c), afterTg cmd payload rest s) := by
  unfold sendRecive telegramWait
  rw [hs]
  simp [hc]

/-- `_send_recive` on a scripted two-byte `T_ER` response. -/
theorem sendRecive_ter (cmd exp : String) (payload : List Nat) (a b : Nat)
    (rest : List ScriptEntry) (s : Sess)
    (hs : s.script = ("T_ER", [a, b]) :: rest) (hne : ("T_ER" : String) ≠ exp) :
    sendRecive cmd (some exp) payload s =
      (.ok .isFalse,
       { afterTg cmd payload rest s with lastErrorCode := some (a, b) }) := by
  unfold sendRecive telegramWait
  rw [hs]
  simp [hne, decodeErrorPM]

/-- `_send_recive` on any other scripted unexpected tag. -/
theorem sendRecive_other (cmd exp resp : String) (payload c : List Nat)
    (rest : List ScriptEntry) (s : Sess) (hs : s.script = (resp, c) :: rest)
    (h1 : resp ≠ exp) (h2 : resp ≠ "T_ER") :
    sendRecive cmd (some exp) payload s =
      (.ok .isFalse, { afterTg cmd payload rest s with lastErrorCode := none }) := by
  unfold sendRecive telegramWait
  rw [hs]
  simp [h1, h2]

/-- One unfolding step of the error-enumeration loop on a falsy result. -/
theorem nextErrorLoop_isFalse (msgs : List ErrMsg) (s : Sess) :
    nextErrorLoop msgs .isFalse s = (.ok msgs, s) := by
  unfold nextErrorLoop
  rfl

/-- One unfolding step of the error-enumeration loop on a content result:
the loop decodes the message and re-issues `NEXT_ERROR`. -/
theorem nextErrorLoop_content_ok (msgs : List ErrMsg) (bs : List Nat) (s : Sess)
    (r' : SRRes) (s' : Sess)
    (hsr : sendRecive "R_RI" (some "S_RI") (pack16 ParRRI_NEXT_ERROR) s =
      (.ok r', s')) :
    nextErrorLoop msgs (.content bs) s =
      nextErrorLoop (msgs ++ [decodeErrorMessage bs]) r' s' := by
  conv_lhs => unfold nextErrorLoop
  split
  · rename_i r3 s3 heq
    rw [hsr] at heq
    rw [Prod.mk.injEq] at heq
    obtain ⟨h1, h2⟩ := heq
    injection h1 with h1
    rw [h1, h2]
  · rename_i e s3 heq
    rw [hsr] at heq
    simp at heq

/-- Running the error-enumeration loop over a script of successful `S_RI`
answers followed by a terminating `T_ER`: every success appends one decoded
message, the `T_ER` ends the loop and records its code pair. -/
theorem nextErrorLoop_run (es : List (List Nat)) (msgs : List ErrMsg)
    (bs : List Nat) (g c2 : Nat) (rest : List ScriptEntry) (s : Sess)
    (hes : ∀ e ∈ es, e ≠ [])
    (hs : s.script = es.map (fun e => ("S_RI", e)) ++ ("T_ER", [g, c2]) :: rest) :
    ∃ s₁, nextErrorLoop msgs (.content bs) s =
        (.ok (msgs ++ [decodeErrorMessage bs] ++ es.map decodeErrorMessage), s₁) ∧
      s₁.lastErrorCode = some (g, c2) ∧ s₁.script = rest := by
  induction es generalizing msgs bs s with
  | nil =>
      simp only [List.map_nil, List.nil_append] at hs
      rw [nextErrorLoop_content_ok msgs bs s .isFalse _
        (sendRecive_ter "R_RI" "S_RI" (pack16 ParRRI_NEXT_ERROR) g c2 rest s hs
          (by decide))]
      rw [nextErrorLoop_isFalse]
      exact ⟨{ afterTg "R_RI" (pack16 ParRRI_NEXT_ERROR) rest s with
                 lastErrorCode := some (g, c2) }, by simp, by simp, by simp⟩
  | cons e es ih =>
      simp only [List.map_cons, List.cons_append] at hs
      have hce : e ≠ [] := hes e (by simp)
      rw [nextErrorLoop_content_ok msgs bs s (.content e) _
        (sendRecive_exp "R_RI" "S_RI" (pack16 ParRRI_NEXT_ERROR) e
          (es.map (fun e => ("S_RI", e)) ++ ("T_ER", [g, c2]) :: rest) s hs hce)]
      obtain ⟨s₁, hrun, hcode, hscript⟩ :=
        ih (msgs ++ [decodeErrorMessage bs]) e
          (afterTg "R_RI" (pack16 ParRRI_NEXT_ERROR)
            (es.map (fun e => ("S_RI", e)) ++ ("T_ER", [g, c2]) :: rest) s)
          (fun x hx => hes x (by simp [hx])) (by simp)
      refine ⟨s₁, ?_, hcode, hscript⟩
      rw [hrun]
      simp

/-- C6: `get_error_messages` issues `FIRST_ERROR` and, on success,
repeatedly issues `NEXT_ERROR`, appending one decoded message per
successful answer; a trailing `T_ER` carrying `T_ER_NO_NEXT_ERROR` is the
normal terminator, so the collected message list — not `False` — is
returned. -/
theorem claim_C6 (s : Sess) (e1 : List Nat) (es : List (List Nat)) (g : Nat)
    (hk : Login_DNC ∉ s.knownLogins) (ha : Login_DNC ∉ s.activeLogins)
    (he1 : e1 ≠ []) (hes : ∀ e ∈ es, e ≠ [])
    (hs : s.script = ("S_RI", e1) :: (es.map (fun e => ("S_RI", e)) ++
            [("T_ER", [g, T_ER_NO_NEXT_ERROR])])) :
    ∃ s₁, getErrorMessages s =
      (.ok (.list (([e1] ++ es).map decodeErrorMessage)), s₁) := by
  unfold getErrorMessages
  rw [login_unknown Login_DNC none s ha hk]
  simp only [pbind_ok]
  rw [sendRecive_exp "R_RI" "S_RI" (pack16 ParRRI_FIRST_ERROR) e1 _ s hs he1]
  simp only [pbind_ok]
  cases es with
  | nil =>
      rw [sendRecive_ter "R_RI" "S_RI" (pack16 ParRRI_NEXT_ERROR) g
        T_ER_NO_NEXT_ERROR [] _ (by simp) (by decide)]
      simp only [pbind_ok]
      rw [nextErrorLoop_isFalse]
      simp only [pbind_ok]
      exact ⟨{ afterTg "R_RI" (pack16 ParRRI_NEXT_ERROR) []
                 (afterTg "R_RI" (pack16 ParRRI_FIRST_ERROR)
                   [("T_ER", [g, T_ER_NO_NEXT_ERROR])] s) with
                 lastErrorCode := some (g, T_ER_NO_NEXT_ERROR) }, by simp⟩
  | cons e es' =>
      rw [sendRecive_exp "R_RI" "S_RI" (pack16 ParRRI_NEXT_ERROR) e
        (es'.map (fun e => ("S_RI", e)) ++ [("T_ER", [g, T_ER_NO_NEXT_ERROR])]) _
        (by simp) (hes e (by simp))]
      simp only [pbind_ok]
      obtain ⟨s₁, hrun, hcode, hscript⟩ :=
        nextErrorLoop_run es' [decodeErrorMessage e1] e g T_ER_NO_NEXT_ERROR []
          (afterTg "R_RI" (pack16 ParRRI_NEXT_ERROR)
            (es'.map (fun e2 => ("S_RI", e2)) ++
              [("T_ER", [g, T_ER_NO_NEXT_ERROR])])
            (afterTg "R_RI" (pack16 ParRRI_FIRST_ERROR)
              (List.map (fun e2 => ("S_RI", e2)) (e :: es') ++
                [("T_ER", [g, T_ER_NO_NEXT_ERROR])]) s))
          (fun x hx => hes x (by simp [hx])) (by simp)
      rw [hrun]
      simp only [pbind_ok]
      rw [hcode]
      exact ⟨s₁, by simp⟩

/-- Witness for C6: with one scripted error answer followed by the
no-next-error terminator, `get_error_messages` returns a one-element list
rather than `False`. -/
theorem claim_C6_witness :
    ∃ s₁, getErrorMessages
        (initLSV2 true false none
          [("S_RI", [1, 2, 0, 65]), ("T_ER", [3, T_ER_NO_NEXT_ERROR])]) =
      (.ok (.list [decodeErrorMessage [1, 2, 0, 65]]), s₁) := by
  simpa using claim_C6
    (initLSV2 true false none
      [("S_RI", [1, 2, 0, 65]), ("T_ER", [3, T_ER_NO_NEXT_ERROR])])
    [1, 2, 0, 65] [] 3 (by decide) (by decide) (by decide) (by simp) rfl

/-- Running the error-enumeration loop over successful `S_RI` answers that
end in an unexpected tag that is not `T_ER`: the failing exchange clears
`last_error` to `None` before the loop returns its collected messages. -/
theorem nextErrorLoop_run_fail (es : List (List Nat)) (msgs : List ErrMsg)
    (bs c : List Nat) (x : String) (rest : List ScriptEntry) (s : Sess)
    (hes : ∀ e ∈ es, e ≠ []) (hx1 : x ≠ "S_RI") (hx2 : x ≠ "T_ER")
    (hs : s.script = es.map (fun e => ("S_RI", e)) ++ (x, c) :: rest) :
    ∃ s₁, nextErrorLoop msgs (.content bs) s =
        (.ok (msgs ++ [decodeErrorMessage bs] ++ es.map decodeErrorMessage), s₁) ∧
      s₁.lastErrorCode = none ∧ s₁.script = rest := by
  induction es generalizing msgs bs s with
  | nil =>
      simp only [List.map_nil, List.nil_append] at hs
      rw [nextErrorLoop_content_ok msgs bs s .isFalse _
        (sendRecive_other "R_RI" "S_RI" x (pack16 ParRRI_NEXT_ERROR) c rest s hs
          hx1 hx2)]
      rw [nextErrorLoop_isFalse]
      exact ⟨{ afterTg "R_RI" (pack16 ParRRI_NEXT_ERROR) rest s with
                 lastErrorCode := none }, by simp, by simp, by simp⟩
  | cons e es ih =>
      simp only [List.map_cons, List.cons_append] at hs
      have hce : e ≠ [] := hes e (by simp)
      rw [nextErrorLoop_content_ok msgs bs s (.content e) _
        (sendRecive_exp "R_RI" "S_RI" (pack16 ParRRI_NEXT_ERROR) e
          (es.map (fun e => ("S_RI", e)) ++ (x, c) :: rest) s hs hce)]
      obtain ⟨s₁, hrun, hcode, hscript⟩ :=
        ih (msgs ++ [decodeErrorMessage bs]) e
          (afterTg "R_RI" (pack16 ParRRI_NEXT_ERROR)
            (es.map (fun e => ("S_RI", e)) ++ (x, c) :: rest) s)
          (fun y hy => hes y (by simp [hy])) (by simp)
      refine ⟨s₁, ?_, hcode, hscript⟩
      rw [hrun]
      simp

/-- C10: when the `FIRST_ERROR` exchange — or the final `NEXT_ERROR`
exchange after any run of successes — fails with an unexpected tag that is
not `T_ER`, `_send_recive` sets `last_error` to `None` and
`get_error_messages` then subscripts it, raising a `TypeError` instead of
returning `False`; when the failing answer is `T_ER` the corresponding
dereference is safe and a normal value is returned. -/
theorem claim_C10 (s : Sess) (x : String) (c : List Nat)
    (rest : List ScriptEntry)
    (hk : Login_DNC ∉ s.knownLogins) (ha : Login_DNC ∉ s.activeLogins) :
    (s.script = (x, c) :: rest → x ≠ "S_RI" → x ≠ "T_ER" →
       getErrorMessages s =
         (.err .typeErr,
          { afterTg "R_RI" (pack16 ParRRI_FIRST_ERROR) rest s with
              lastErrorCode := none })) ∧
    (∀ a b, s.script = ("T_ER", [a, b]) :: rest →
       ∃ r s₁, getErrorMessages s = (.ok r, s₁)) ∧
    (∀ (e1 : List Nat) (es : List (List Nat)) (x2 : String) (c2 : List Nat)
       (rest2 : List ScriptEntry), e1 ≠ [] → (∀ e ∈ es, e ≠ []) →
       x2 ≠ "S_RI" → x2 ≠ "T_ER" →
       s.script = ("S_RI", e1) :: (es.map (fun e => ("S_RI", e)) ++
         (x2, c2) :: rest2) →
       (getErrorMessages s).1 = .err .typeErr) ∧
    (∀ (e1 : List Nat) (es : List (List Nat)) (a b : Nat)
       (rest2 : List ScriptEntry), e1 ≠ [] → (∀ e ∈ es, e ≠ []) →
       s.script = ("S_RI", e1) :: (es.map (fun e => ("S_RI", e)) ++
         ("T_ER", [a, b]) :: rest2) →
       ∃ msgs s₁, getErrorMessages s = (.ok (.list msgs), s₁)) := by
  refine ⟨?_, ?_, ?_, ?_⟩
  · intro hs h1 h2
    unfold getErrorMessages
    rw [login_unknown Login_DNC none s ha hk]
    simp only [pbind_ok]
    rw [sendRecive_other "R_RI" "S_RI" x (pack16 ParRRI_FIRST_ERROR) c rest s hs h1 h2]
    simp only [pbind_ok]
  · intro a b hs
    unfold getErrorMessages
    rw [login_unknown Login_DNC none s ha hk]
    simp only [pbind_ok]
    rw [sendRecive_ter "R_RI" "S_RI" (pack16 ParRRI_FIRST_ERROR) a b rest s hs
      (by decide)]
    simp only [pbind_ok]
    by_cases hb : b = T_ER_NO_NEXT_ERROR <;> simp [hb]
  · intro e1 es x2 c2 rest2 he1 hes hx1 hx2 hscript
    unfold getErrorMessages
    rw [login_unknown Login_DNC none s ha hk]
    simp only [pbind_ok]
    rw [sendRecive_exp "R_RI" "S_RI" (pack16 ParRRI_FIRST_ERROR) e1 _ s hscript he1]
    simp only [pbind_ok]
    cases es with
    | nil =>
        rw [sendRecive_other "R_RI" "S_RI" x2 (pack16 ParRRI_NEXT_ERROR) c2 rest2 _
          (by simp) hx1 hx2]
        simp only [pbind_ok]
        rw [nextErrorLoop_isFalse]
        simp only [pbind_ok]
    | cons e es2 =>
        rw [sendRecive_exp "R_RI" "S_RI" (pack16 ParRRI_NEXT_ERROR) e
          (es2.map (fun e => ("S_RI", e)) ++ (x2, c2) :: rest2) _
          (by simp) (hes e (by simp))]
        simp only [pbind_ok]
        obtain ⟨s₁, hrun, hnone, hscr⟩ :=
          nextErrorLoop_run_fail es2 [decodeErrorMessage e1] e c2 x2 rest2
            (afterTg "R_RI" (pack16 ParRRI_NEXT_ERROR)
              (es2.map (fun e2 => ("S_RI", e2)) ++ (x2, c2) :: rest2)
              (afterTg "R_RI" (pack16 ParRRI_FIRST_ERROR)
                (List.map (fun e2 => ("S_RI", e2)) (e :: es2) ++ (x2, c2) :: rest2) s))
            (fun y hy => hes y (by simp [hy])) hx1 hx2 (by simp)
        rw [hrun]
        simp only [pbind_ok]
        rw [hnone]
  · intro e1 es a b rest2 he1 hes hscript
    unfold getErrorMessages
    rw [login_unknown Login_DNC none s ha hk]
    simp only [pbind_ok]
    rw [sendRecive_exp "R_RI" "S_RI" (pack16 ParRRI_FIRST_ERROR) e1 _ s hscript he1]
    simp only [pbind_ok]
    cases es with
    | nil =>
        rw [sendRecive_ter "R_RI" "S_RI" (pack16 ParRRI_NEXT_ERROR) a b rest2 _
          (by simp) (by decide)]
        simp only [pbind_ok]
        rw [nextErrorLoop_isFalse]
        simp only [pbind_ok]
        exact ⟨_, _, rfl⟩
    | cons e es2 =>
        rw [sendRecive_exp "R_RI" "S_RI" (pack16 ParRRI_NEXT_ERROR) e
          (es2.map (fun e => ("S_RI", e)) ++ ("T_ER", [a, b]) :: rest2) _
          (by simp) (hes e (by simp))]
        simp only [pbind_ok]
        obtain ⟨s₁, hrun, hcode, hscr⟩ :=
          nextErrorLoop_run es2 [decodeErrorMessage e1] e a b rest2
            (afterTg "R_RI" (pack16 ParRRI_NEXT_ERROR)
              (es2.map (fun e2 => ("S_RI", e2)) ++ ("T_ER", [a, b]) :: rest2)
              (afterTg "R_RI" (pack16 ParRRI_FIRST_ERROR)
                (List.map (fun e2 => ("S_RI", e2)) (e :: es2) ++
                  ("T_ER", [a, b]) :: rest2) s))
            (fun y hy => hes y (by simp [hy])) (by simp)
        rw [hrun]
        simp only [pbind_ok]
        rw [hcode]
        exact ⟨_, _, rfl⟩

/-- Witness for C10: a scripted `T_OK` answer to `FIRST_ERROR` makes
`get_error_messages` raise the modelled `TypeError`. -/
theorem claim_C10_witness :
    getErrorMessages (initLSV2 true false none [("T_OK", [])]) =
      (.err .typeErr,
       { afterTg "R_RI" (pack16 ParRRI_FIRST_ERROR) []
           (initLSV2 true false none [("T_OK", [])]) with lastErrorCode := none }) :=
  (claim_C10 (initLSV2 true false none [("T_OK", [])]) "T_OK" [] []
      (by decide) (by decide)).1 rfl (by decide) (by decide)

/-- An awaited telegram on a non-empty script delivers the first entry. -/
theorem telegramWait_cons (cmd : String) (payload : List Nat) (s : Sess)
    (rc : ScriptEntry) (rest : List ScriptEntry) (hs : s.script = rc :: rest) :
    telegramWait cmd payload s = (.ok rc, afterTg cmd payload rest s) := by
  unfold telegramWait
  rw [hs]

/-- C4 (evaluating the code at the failing input): downloading
`TNC:/file.bmp` — a name with a known binary extension — with the
`binary_mode` flag unset selects `MODE_BINARY` on the wire, yet the bytes
written locally are the text-mode rewrite of the single `S_FL` payload
`41 00 42` (namely `41 0D 0A 42`) instead of the payload itself. -/
theorem claim_C4 :
    (reciveFile "TNC:/file.bmp" false false
        (initLSV2 true false none
          [("S_FI", [1]), ("S_FL", [65, 0, 66]), ("T_FD", [])])).1 = .ok true ∧
    (reciveFile "TNC:/file.bmp" false false
        (initLSV2 true false none
          [("S_FI", [1]), ("S_FL", [65, 0, 66]), ("T_FD", [])])).2.trace =
      [("R_FI", strBytes "TNC:\\file.bmp" ++ [0], true),
       ("R_FL", strBytes "TNC:\\file.bmp" ++ [0, MODE_BINARY], true),
       ("T_OK", [], true)] ∧
    (reciveFile "TNC:/file.bmp" false false
        (initLSV2 true false none
          [("S_FI", [1]), ("S_FL", [65, 0, 66]), ("T_FD", [])])).2.localFile =
      some [65, 13, 10, 66] ∧
    some [65, 13, 10, 66] ≠ some ([65, 0, 66] : List Nat) := by
  refine ⟨?_, ?_, ?_, by decide⟩ <;> rfl

/-- C9: whenever the remote file exists but the first answer to `R_FL` is
not `S_FL`, `recive_file` returns `False` although the local file was
already opened for writing: a zero-byte local file exists afterwards. -/
theorem claim_C9 (remotePath : String) (ov bm : Bool) (s : Sess)
    (info c : List Nat) (resp : String) (rest : List ScriptEntry)
    (hscript : s.script = ("S_FI", info) :: (resp, c) :: rest)
    (hinfo : info ≠ [])
    (hlocal : s.localFile = none ∨ ov = true)
    (hresp : resp ≠ "S_FL")
    (hwf : resp = "T_ER" ∨ resp = "T_BD" → ∃ a b, c = [a, b]) :
    ∃ s₁, reciveFile remotePath ov bm s = (.ok false, s₁) ∧
      s₁.localFile = some [] := by
  unfold reciveFile getFileInfo
  rw [sendRecive_exp "R_FI" "S_FI"
    (strBytes (replaceSlash (replaceSlash remotePath)) ++ [0])
    info ((resp, c) :: rest) s hscript hinfo]
  simp only [pbind_ok]
  have hfin : ∀ t : Sess, t.script = (resp, c) :: rest →
      ∃ s₁,
        (pbind
          (telegramWait "R_FL"
            (strBytes (replaceSlash remotePath) ++ [0] ++
              [if bm || isFileBinary (replaceSlash remotePath) then MODE_BINARY
               else 0]) t)
          fun rc s₂ =>
            if rc.1 = "S_FL" then
              reciveLoop bm { s₂ with localFile := some (writeMode bm rc.2) }
            else if rc.1 = "T_ER" ∨ rc.1 = "T_BD" then
              pbind (decodeErrorPM rc.2 { s₂ with localFile := some ([] : List Nat) })
                fun ab s₄ => (.ok false, { s₄ with lastErrorCode := some ab })
            else
              (.ok false,
               { s₂ with localFile := some ([] : List Nat), lastErrorCode := none })) =
          (.ok false, s₁) ∧ s₁.localFile = some [] := by
    intro t ht
    rw [telegramWait_cons _ _ _ (resp, c) rest ht]
    simp only [pbind_ok]
    rw [if_neg hresp]
    by_cases hter : resp = "T_ER" ∨ resp = "T_BD"
    · rw [if_pos hter]
      obtain ⟨a, b, hc⟩ := hwf hter
      subst hc
      unfold decodeErrorPM
      simp only [pbind_ok]
      exact ⟨_, rfl, by simp⟩
    · rw [if_neg hter]
      exact ⟨_, rfl, by simp⟩
  by_cases hsd : s.localFile = none
  · simp only [afterTg_localFile, hsd, Option.isSome_none, Bool.false_eq_true,
      false_and, if_false]
    exact hfin _ rfl
  · obtain ⟨d, hx⟩ : ∃ d, s.localFile = some d := by
      rcases hq : s.localFile with _ | d
      · exact absurd hq hsd
      · exact ⟨d, rfl⟩
    have hov : ov = true := hlocal.resolve_left hsd
    simp only [afterTg_localFile, hx, hov, Option.isSome_some, not_true,
      and_false, if_false, if_true, true_and]
    exact hfin _ rfl

/-- Witness for C9: a `T_ER` answer to `R_FL` for an existing remote file
leaves a created zero-byte local file behind together with the `False`
result. -/
theorem claim_C9_witness :
    ∃ s₁, reciveFile "TNC:/a.txt" false false
        (initLSV2 true false none [("S_FI", [1]), ("T_ER", [1, 5])]) =
      (.ok false, s₁) ∧ s₁.localFile = some [] :=
  claim_C9 "TNC:/a.txt" false false
    (initLSV2 true false none [("S_FI", [1]), ("T_ER", [1, 5])])
    [1] [1, 5] "T_ER" [] rfl (by decide) (.inl rfl) (by decide)
    (fun _ => ⟨1, 5, rfl⟩)

/-- The sequence of chunks `read(n)` yields on a byte list: full chunks of
`n` bytes, the final one possibly shorter. -/
def chunksOf (n : Nat) (data : List Nat) : List (List Nat) :=
  if h : n = 0 ∨ data = [] then []
  else data.take n :: chunksOf n (data.drop n)
termination_by data.length
decreasing_by
  have hn : n ≠ 0 := fun hz => h (.inl hz)
  have hd : data ≠ [] := fun hz => h (.inr hz)
  have := List.length_pos.mpr hd
  simp only [List.length_drop]
  omega

/-- Concatenating the chunks restores the data. -/
theorem chunksOf_join (n : Nat) (hn : 1 ≤ n) :
    ∀ N data, List.length data ≤ N → (chunksOf n data).flatten = data := by
  intro N
  induction N with
  | zero =>
      intro data hlen
      have : data = [] := List.length_eq_zero.mp (Nat.le_zero.mp hlen)
      subst this
      rw [chunksOf]
      simp
  | succ N ih =>
      intro data hlen
      rcases hd : data with _ | ⟨x, xs⟩
      · rw [chunksOf]
        simp
      · rw [chunksOf]
        rw [dif_neg (by simp [hd]; omega)]
        have hlen2 : (data.drop n).length ≤ N := by
          rw [List.length_drop]
          rw [hd] at hlen ⊢
          simp at hlen ⊢
          omega
        rw [← hd]
        rw [List.flatten_cons]
        rw [ih (data.drop n) hlen2]
        exact List.take_append_drop n data

/-- Every chunk but the last has exactly `n` bytes, and every chunk is
non-empty with at most `n` bytes. -/
theorem chunksOf_shape (n : Nat) (hn : 1 ≤ n) :
    ∀ N data, List.length data ≤ N →
      (∀ ch ∈ (chunksOf n data).dropLast, ch.length = n) ∧
      (∀ ch ∈ chunksOf n data, ch ≠ [] ∧ ch.length ≤ n) := by
  intro N
  induction N with
  | zero =>
      intro data hlen
      have : data = [] := List.length_eq_zero.mp (Nat.le_zero.mp hlen)
      subst this
      rw [chunksOf]
      simp
  | succ N ih =>
      intro data hlen
      rcases hd : data with _ | ⟨x, xs⟩
      · rw [chunksOf]
        simp
      · rw [chunksOf]
        rw [dif_neg (by simp [hd]; omega)]
        rw [← hd]
        have hlen2 : (data.drop n).length ≤ N := by
          rw [List.length_drop]
          rw [hd] at hlen ⊢
          simp at hlen ⊢
          omega
        obtain ⟨ih1, ih2⟩ := ih (data.drop n) hlen2
        constructor
        · intro ch hch
          rcases hrec : chunksOf n (data.drop n) with _ | ⟨y, ys⟩
          · rw [hrec] at hch
            simp at hch
          · rw [hrec] at hch
            rw [List.dropLast_cons₂] at hch
            rcases List.mem_cons.mp hch with hch | hch
            · subst hch
              rw [List.length_take]
              have hdrop : data.drop n ≠ [] := by
                intro hz
                rw [hz] at hrec
                rw [chunksOf] at hrec
                simp at hrec
              have : n < data.length := by
                by_contra hcon
                push_neg at hcon
                exact hdrop (List.drop_eq_nil_of_le hcon)
              omega
            · exact ih1 ch (by rw [hrec]; exact hch)
        · intro ch hch
          rcases List.mem_cons.mp hch with hch | hch
          · subst hch
            refine ⟨by simp [hd]; omega, by simp⟩
          · exact ih2 ch hch

/-- Running the chunk loop against a script of one `T_OK` per chunk: every
chunk is sent tagged `S_FL` in order and the loop succeeds, consuming
exactly those acknowledgements. -/
theorem sendChunksLoop_ok (bs : Nat) (hbs : 11 ≤ bs) :
    ∀ N data (s : Sess) tail, List.length data ≤ N →
      s.script = (chunksOf (bs - 10) data).map
          (fun _ => ("T_OK", ([] : List Nat))) ++ tail →
      sendChunksLoop bs data s =
        (.ok true,
         { s with
             script := tail,
             trace := s.trace ++ (chunksOf (bs - 10) data).map
               (fun ch => ("S_FL", ch, true)) }) := by
  have hbase : ∀ (s : Sess) tail,
      s.script = (chunksOf (bs - 10) []).map
          (fun _ => ("T_OK", ([] : List Nat))) ++ tail →
      sendChunksLoop bs [] s =
        (.ok true,
         { s with
             script := tail,
             trace := s.trace ++ (chunksOf (bs - 10) []).map
               (fun ch => ("S_FL", ch, true)) }) := by
    intro s tail hs
    have hc0 : chunksOf (bs - 10) ([] : List Nat) = [] := by
      rw [chunksOf]
      simp
    rw [hc0, List.map_nil, List.nil_append] at hs
    rw [sendChunksLoop]
    rw [dif_pos (by simp)]
    rw [hc0]
    rw [← hs]
    simp
  intro N
  induction N with
  | zero =>
      intro data s tail hlen hs
      have hdata : data = [] := List.length_eq_zero.mp (Nat.le_zero.mp hlen)
      subst hdata
      exact hbase s tail hs
  | succ N ih =>
      intro data s tail hlen hs
      rcases hd : data with _ | ⟨x, xs⟩
      · subst hd
        exact hbase s tail hs
      · subst hd
        have htake : (x :: xs).take (bs - 10) ≠ [] := by
          rw [show bs - 10 = (bs - 11) + 1 from by omega]
          simp
        have hchunks : chunksOf (bs - 10) (x :: xs) =
            (x :: xs).take (bs - 10) ::
              chunksOf (bs - 10) ((x :: xs).drop (bs - 10)) := by
          rw [chunksOf]
          rw [dif_neg (by push_neg; exact ⟨by omega, by simp⟩)]
        rw [hchunks] at hs
        simp only [List.map_cons, List.cons_append] at hs
        rw [sendChunksLoop]
        rw [dif_neg (by simpa using htake)]
        rw [telegramWait_cons "S_FL" ((x :: xs).take (bs - 10)) s ("T_OK", []) _ hs]
        simp only [pbind_ok, if_true]
        rw [ih ((x :: xs).drop (bs - 10)) _ tail
          (by
            rw [List.length_drop]
            simp only [List.length_cons] at hlen ⊢
            omega)
          (by simp)]
        rw [hchunks]
        simp [afterTg, Sess.mk.injEq]

/-- C8: after `C_FL` is acknowledged, the local data is sent in chunks of
exactly `buffer_size − 10` bytes (the final chunk possibly shorter), each
tagged `S_FL` and each answered by a `T_OK` from the script; at end of
data, with secure file send the client sends `T_FD` and consumes a `T_OK`,
otherwise it sends `T_FD` fire-and-forget without consuming any response;
a `T_ER` answer to a chunk aborts with `False`. -/
@[simp]
theorem truthy_isTrue : SRRes.isTrue.truthy = true := rfl

@[simp]
theorem truthy_content (bs : List Nat) : (SRRes.content bs).truthy = true := rfl

@[simp]
theorem truthy_isFalse : SRRes.isFalse.truthy = false := rfl

/-- A `_send_recive` exchange expecting `T_OK` that is answered by `T_OK`
always yields a truthy result (content or the `True` sentinel). -/
theorem sendRecive_tok_truthy (cmd : String) (payload c : List Nat)
    (rest : List ScriptEntry) (s : Sess) (hs : s.script = ("T_OK", c) :: rest) :
    ∃ r, sendRecive cmd (some "T_OK") payload s =
        (.ok r, afterTg cmd payload rest s) ∧ r.truthy = true := by
  by_cases hc : c = []
  · subst hc
    refine ⟨.isTrue, ?_, rfl⟩
    unfold sendRecive telegramWait
    rw [hs]
    simp
  · refine ⟨.content c, ?_, rfl⟩
    unfold sendRecive telegramWait
    rw [hs]
    simp [hc]

/-- C8: after `C_FL` is acknowledged, the local data is sent in chunks of
exactly `buffer_size − 10` bytes (the final chunk possibly shorter), each
tagged `S_FL` and each answered by a `T_OK` from the script; at end of
data, with secure file send the client sends `T_FD` and consumes a `T_OK`,
otherwise it sends `T_FD` fire-and-forget without consuming any response;
a `T_ER` answer to a chunk aborts with `False`. -/
theorem claim_C8 (remoteFullPath localPath : String) (data : List Nat)
    (bm : Bool) (s : Sess) (hbs : 11 ≤ s.bufferSize) :
    ((∀ ch ∈ (chunksOf (s.bufferSize - 10) data).dropLast,
        ch.length = s.bufferSize - 10) ∧
     (∀ ch ∈ chunksOf (s.bufferSize - 10) data,
        ch ≠ [] ∧ ch.length ≤ s.bufferSize - 10) ∧
     (chunksOf (s.bufferSize - 10) data).flatten = data) ∧
    (∀ c0 tail, s.secureFileSend = false →
       s.script = ("T_OK", c0) :: ((chunksOf (s.bufferSize - 10) data).map
           (fun _ => ("T_OK", ([] : List Nat))) ++ tail) →
       ∃ s₁, sendFileCore remoteFullPath localPath data bm s = (.ok true, s₁) ∧
         s₁.trace = s.trace ++
           [("C_FL", sendFilePayload remoteFullPath localPath bm, true)] ++
           (chunksOf (s.bufferSize - 10) data).map
             (fun ch => ("S_FL", ch, true)) ++
           [("T_FD", [], false)] ∧
         s₁.script = tail) ∧
    (∀ c0 ct tail, s.secureFileSend = true →
       s.script = ("T_OK", c0) :: ((chunksOf (s.bufferSize - 10) data).map
           (fun _ => ("T_OK", ([] : List Nat))) ++ ("T_OK", ct) :: tail) →
       ∃ s₁, sendFileCore remoteFullPath localPath data bm s = (.ok true, s₁) ∧
         s₁.trace = s.trace ++
           [("C_FL", sendFilePayload remoteFullPath localPath bm, true)] ++
           (chunksOf (s.bufferSize - 10) data).map
             (fun ch => ("S_FL", ch, true)) ++
           [("T_FD", [], true)] ∧
         s₁.script = tail) ∧
    (∀ c0 a b rest2, data.take (s.bufferSize - 10) ≠ [] →
       s.script = ("T_OK", c0) :: ("T_ER", [a, b]) :: rest2 →
       ∃ s₁, sendFileCore remoteFullPath localPath data bm s =
         (.ok false, s₁)) := by
  refine ⟨⟨?_, ?_, ?_⟩, ?_, ?_, ?_⟩
  · exact (chunksOf_shape (s.bufferSize - 10) (by omega) data.length data le_rfl).1
  · exact (chunksOf_shape (s.bufferSize - 10) (by omega) data.length data le_rfl).2
  · exact chunksOf_join (s.bufferSize - 10) (by omega) data.length data le_rfl
  · intro c0 tail hsec hscript
    unfold sendFileCore
    rw [telegramWait_cons "C_FL" (sendFilePayload remoteFullPath localPath bm) s
      ("T_OK", c0) _ hscript]
    simp only [pbind_ok, if_true]
    rw [afterTg_bufferSize]
    rw [sendChunksLoop_ok s.bufferSize hbs data.length data _ tail le_rfl (by simp)]
    simp only [pbind_ok, if_true]
    have hsec2 : ({ afterTg "C_FL" (sendFilePayload remoteFullPath localPath bm)
        ((chunksOf (s.bufferSize - 10) data).map
          (fun _ => ("T_OK", ([] : List Nat))) ++ tail) s with
        script := tail,
        trace := (afterTg "C_FL" (sendFilePayload remoteFullPath localPath bm)
            ((chunksOf (s.bufferSize - 10) data).map
              (fun _ => ("T_OK", ([] : List Nat))) ++ tail) s).trace ++
          (chunksOf (s.bufferSize - 10) data).map
            (fun ch => ("S_FL", ch, true)) } : Sess).secureFileSend = false := by
      simpa [afterTg] using hsec
    rw [hsec2]
    simp only [Bool.false_eq_true, if_false]
    unfold sendRecive telegramNoWait
    simp only [pbind_ok, truthy_isTrue, if_true]
    exact ⟨_, rfl, by simp [afterTg], by simp⟩
  · intro c0 ct tail hsec hscript
    unfold sendFileCore
    rw [telegramWait_cons "C_FL" (sendFilePayload remoteFullPath localPath bm) s
      ("T_OK", c0) _ hscript]
    simp only [pbind_ok, if_true]
    rw [afterTg_bufferSize]
    rw [sendChunksLoop_ok s.bufferSize hbs data.length data _
      (("T_OK", ct) :: tail) le_rfl (by simp)]
    simp only [pbind_ok, if_true]
    have hsec2 : ({ afterTg "C_FL" (sendFilePayload remoteFullPath localPath bm)
        ((chunksOf (s.bufferSize - 10) data).map
          (fun _ => ("T_OK", ([] : List Nat))) ++ ("T_OK", ct) :: tail) s with
        script := ("T_OK", ct) :: tail,
        trace := (afterTg "C_FL" (sendFilePayload remoteFullPath localPath bm)
            ((chunksOf (s.bufferSize - 10) data).map
              (fun _ => ("T_OK", ([] : List Nat))) ++ ("T_OK", ct) :: tail) s).trace ++
          (chunksOf (s.bufferSize - 10) data).map
            (fun ch => ("S_FL", ch, true)) } : Sess).secureFileSend = true := by
      simpa [afterTg] using hsec
    rw [if_pos hsec2]
    obtain ⟨r, hr, htr⟩ := sendRecive_tok_truthy "T_FD" [] ct tail
      ({ afterTg "C_FL" (sendFilePayload remoteFullPath localPath bm)
        ((chunksOf (s.bufferSize - 10) data).map
          (fun _ => ("T_OK", ([] : List Nat))) ++ ("T_OK", ct) :: tail) s with
        script := ("T_OK", ct) :: tail,
        trace := (afterTg "C_FL" (sendFilePayload remoteFullPath localPath bm)
            ((chunksOf (s.bufferSize - 10) data).map
              (fun _ => ("T_OK", ([] : List Nat))) ++ ("T_OK", ct) :: tail) s).trace ++
          (chunksOf (s.bufferSize - 10) data).map
            (fun ch => ("S_FL", ch, true)) } : Sess) rfl
    rw [hr]
    simp only [pbind_ok, htr, if_true]
    exact ⟨_, rfl, by simp [afterTg], by simp⟩
  · intro c0 a b rest2 htake hscript
    unfold sendFileCore
    rw [telegramWait_cons "C_FL" (sendFilePayload remoteFullPath localPath bm) s
      ("T_OK", c0) _ hscript]
    simp only [pbind_ok, if_true]
    rw [afterTg_bufferSize]
    rw [sendChunksLoop]
    rw [dif_neg (by simpa using htake)]
    rw [telegramWait_cons "S_FL" _ _ ("T_ER", [a, b]) rest2 (by simp)]
    simp only [pbind_ok, if_true]
    unfold decodeErrorPM
    simp only [pbind_ok, Bool.false_eq_true, if_false]
    exact ⟨_, rfl⟩

/-- Witness for C8: a three-byte file with the default 256-byte buffer and
non-secure file send is transferred with the scripted acknowledgements and
the fire-and-forget `T_FD`. -/
theorem claim_C8_witness :
    ∃ s₁, sendFileCore "TNC:\\a.txt" "a.txt" [1, 2, 3] false
        (initLSV2 true false none
          (("T_OK", []) :: ((chunksOf (256 - 10) [1, 2, 3]).map
            (fun _ => ("T_OK", ([] : List Nat))) ++ []))) = (.ok true, s₁) ∧
      s₁.trace = [] ++
        [("C_FL", sendFilePayload "TNC:\\a.txt" "a.txt" false, true)] ++
        (chunksOf (256 - 10) [1, 2, 3]).map (fun ch => ("S_FL", ch, true)) ++
        [("T_FD", [], false)] ∧
      s₁.script = [] := by
  simpa using (claim_C8 "TNC:\\a.txt" "a.txt" [1, 2, 3] false
    (initLSV2 true false none
      (("T_OK", []) :: ((chunksOf (256 - 10) [1, 2, 3]).map
        (fun _ => ("T_OK", ([] : List Nat))) ++ [])))
    (by decide)).2.1 [] [] rfl rfl

/-- Non-STRING memory types have a positive element width that matches
their unpack format width. -/
theorem memTypeParams_nonstring (sp : SysPar) (memType : MemoryType)
    (h : memType ≠ .STRING) :
    1 ≤ (memTypeParams sp memType).2.2.1 ∧
    kindWidth (memTypeParams sp memType).2.2.2 =
      (memTypeParams sp memType).2.2.1 := by
  cases memType <;> simp_all [memTypeParams, kindWidth]

/-- The unpack loop succeeds on a buffer of exactly `k` slices of the
format width. -/
theorem unpackSlicesGo_ok (kind : UnpackKind) (mbc : Nat)
    (hw : kindWidth kind = mbc) (hm : 1 ≤ mbc) :
    ∀ k bs, List.length bs = k * mbc →
      ∃ vs, unpackSlicesGo kind mbc k bs = some vs ∧ vs.length = k := by
  intro k
  induction k with
  | zero =>
      intro bs h
      exact ⟨[], rfl, rfl⟩
  | succ k ih =>
      intro bs h
      have hsucc : (k + 1) * mbc = k * mbc + mbc := by ring
      have hge : mbc ≤ bs.length := by
        rw [h, hsucc]
        omega
      have htake : (bs.take mbc).length = kindWidth kind := by
        rw [hw, List.length_take]
        omega
      have hdrop : (bs.drop mbc).length = k * mbc := by
        rw [List.length_drop, h, hsucc]
        omega
      obtain ⟨vs, hvs, hlen⟩ := ih (bs.drop mbc) hdrop
      have hval : unpackValue kind (bs.take mbc) =
          some (interpKind kind (bs.take mbc)) := by
        unfold unpackValue
        rw [if_pos htake]
      refine ⟨interpKind kind (bs.take mbc) :: vs, ?_, by simp [hlen]⟩
      simp [unpackSlicesGo, hval, hvs]

/-- The iteration count of the decode loop on a buffer of `count` whole
slices is exactly `count`. -/
theorem iters_eq (count mbc : Nat) (hm : 1 ≤ mbc) :
    (count * mbc + mbc - 1) / mbc = count := by
  have h1 : count * mbc + mbc - 1 = mbc * count + (mbc - 1) := by
    rw [Nat.mul_comm count mbc]
    omega
  rw [h1, Nat.mul_add_div (by omega)]
  rw [Nat.div_eq_of_lt (by omega)]
  omega

/-- Running the STRING branch loop over scripted full-length answers: one
`R_MB` request per element at the advancing address, one value appended per
answer. -/
theorem readStringLoop_run (base L : Nat) (hL1 : 1 ≤ L) (hL : L ≤ 255) :
    ∀ (idxs : List Nat) (acc : List PlcValue) (s : Sess)
      (contents : List (List Nat)) (rest : List ScriptEntry),
      contents.length = idxs.length →
      (∀ e ∈ contents, List.length e = L) →
      (∀ i ∈ idxs, base + i * L < 4294967296) →
      s.script = contents.map (fun e => ("S_MB", e)) ++ rest →
      ∃ vs s₁, readStringLoop base L idxs acc s = (.ok (.values vs), s₁) ∧
        vs.length = acc.length + idxs.length ∧
        s₁.trace = s.trace ++
          idxs.map (fun i => ("R_MB", pack32 (base + i * L) ++ [L], true)) ∧
        s₁.script = rest := by
  intro idxs
  induction idxs with
  | nil =>
      intro acc s contents rest hclen hcl hlt hs
      have hcnil : contents = [] := List.length_eq_zero.mp (by simpa using hclen)
      subst hcnil
      simp only [List.map_nil, List.nil_append] at hs
      exact ⟨acc, s, rfl, by simp, by simp, hs⟩
  | cons i idxs ih =>
      intro acc s contents rest hclen hcl hlt hs
      rcases contents with _ | ⟨e, contents⟩
      · simp at hclen
      · simp only [List.map_cons, List.cons_append] at hs
        have he : e.length = L := hcl e (by simp)
        have hene : e ≠ [] := by
          intro hz
          rw [hz] at he
          simp at he
          omega
        simp only [readStringLoop]
        unfold packL
        rw [if_pos (hlt i (by simp))]
        simp only [pbind_ok]
        unfold packB
        rw [if_pos hL]
        simp only [pbind_ok]
        rw [sendRecive_exp "R_MB" "S_MB" (pack32 (base + i * L) ++ [L]) e
          (contents.map (fun e => ("S_MB", e)) ++ rest) s hs hene]
        simp only [pbind_ok]
        have hval : unpackValue (.ustr L) e = some (interpKind (.ustr L) e) := by
          unfold unpackValue
          rw [if_pos (by rw [he]; rfl)]
        simp only [hval]
        obtain ⟨vs, s₁, hrun, hvl, htr, hsc⟩ :=
          ih (acc ++ [interpKind (.ustr L) e])
            (afterTg "R_MB" (pack32 (base + i * L) ++ [L])
              (contents.map (fun e => ("S_MB", e)) ++ rest) s)
            contents rest (by simpa using hclen)
            (fun x hx => hcl x (by simp [hx]))
            (fun j hj => hlt j (by simp [hj])) (by simp)
        rw [hrun]
        refine ⟨vs, s₁, rfl, ?_, ?_, hsc⟩
        · rw [hvl]
          simp
          omega
        · rw [htr]
          simp

/-- C5 (amended): a non-STRING read sends exactly one `R_MB` whose payload
is the 4-byte big-endian absolute address `start offset + user address`
(with no multiplication by the element size) followed by one byte holding
`count × element size`; a STRING read sends one `R_MB` per element from
the advanced start address; a count above the per-type maximum or above
255 raises before any `R_MB` telegram is sent. -/
theorem claim_C5 (address count : Nat) (memType : MemoryType) (s : Sess)
    (sp : SysPar) (hsp : s.sysPar = some sp)
    (hk : Login_PLCDEBUG ∉ s.knownLogins) (ha : Login_PLCDEBUG ∉ s.activeLogins) :
    (∀ bs rest, memType ≠ .STRING →
       (count : Rat) ≤ (memTypeParams sp memType).2.1 →
       1 ≤ count → count * (memTypeParams sp memType).2.2.1 ≤ 255 →
       (memTypeParams sp memType).1 + address < 4294967296 →
       s.script = ("S_MB", bs) :: rest →
       List.length bs = count * (memTypeParams sp memType).2.2.1 →
       ∃ vs s₁, readPlcMemory address memType count s =
           (.ok (.values vs), s₁) ∧
         s₁.trace = s.trace ++
           [("R_MB", pack32 ((memTypeParams sp memType).1 + address) ++
               [count * (memTypeParams sp memType).2.2.1], true)] ∧
         s₁.script = rest) ∧
    (∀ (contents : List (List Nat)) (rest : List ScriptEntry), memType = .STRING →
       (count : Rat) ≤ sp.Strings →
       1 ≤ sp.String_Length → sp.String_Length ≤ 255 →
       contents.length = count →
       (∀ e ∈ contents, List.length e = sp.String_Length) →
       (∀ i ∈ List.range count,
          sp.String_Start + (address + (count - 1) * sp.String_Length) +
            i * sp.String_Length < 4294967296) →
       count ≤ 255 →
       s.script = contents.map (fun e => ("S_MB", e)) ++ rest →
       ∃ vs s₁, readPlcMemory address memType count s =
           (.ok (.values vs), s₁) ∧
         vs.length = count ∧
         s₁.trace = s.trace ++ (List.range count).map
           (fun i => ("R_MB",
             pack32 (sp.String_Start + (address + (count - 1) * sp.String_Length) +
               i * sp.String_Length) ++ [sp.String_Length], true)) ∧
         s₁.script = rest) ∧
    (((count : Rat) > (memTypeParams sp memType).2.1 ∨ count > 255) →
       ∃ msg, (readPlcMemory address memType count s).1 = .err (.exn msg) ∧
         (readPlcMemory address memType count s).2.trace = s.trace) := by
  refine ⟨?_, ?_, ?_⟩
  · intro bs rest hnstr hmax hcnt1 hcm hlt hscript hblen
    obtain ⟨hm1, hww⟩ := memTypeParams_nonstring sp memType hnstr
    have h255 : ¬ count > 255 := by
      have hcc : count * 1 ≤ count * (memTypeParams sp memType).2.2.1 :=
        Nat.mul_le_mul_left count hm1
      simp only [Nat.mul_one] at hcc
      omega
    unfold readPlcMemory
    rw [hsp]
    simp only [pbind_ok]
    rw [login_unknown Login_PLCDEBUG none s ha hk]
    simp only [pbind_ok]
    simp only [hsp]
    rw [if_neg (not_lt.mpr hmax)]
    rw [if_neg h255]
    rw [if_neg hnstr]
    unfold packL
    rw [if_pos hlt]
    simp only [pbind_ok]
    unfold packB
    rw [if_pos hcm]
    simp only [pbind_ok]
    have hbne : bs ≠ [] := by
      intro hz
      rw [hz] at hblen
      have hcc : 1 * 1 ≤ count * (memTypeParams sp memType).2.2.1 :=
        Nat.mul_le_mul hcnt1 hm1
      simp at hblen
      omega
    rw [sendRecive_exp "R_MB" "S_MB"
      (pack32 ((memTypeParams sp memType).1 + address) ++
        [count * (memTypeParams sp memType).2.2.1]) bs rest s hscript hbne]
    simp only [pbind_ok]
    obtain ⟨vs, hgo, hvslen⟩ :=
      unpackSlicesGo_ok (memTypeParams sp memType).2.2.2
        (memTypeParams sp memType).2.2.1 hww hm1 count bs hblen
    have hslices : unpackSlices (memTypeParams sp memType).2.2.2
        (memTypeParams sp memType).2.2.1 bs = some vs := by
      unfold unpackSlices
      rw [if_neg (by omega)]
      rw [hblen, iters_eq count (memTypeParams sp memType).2.2.1 hm1]
      exact hgo
    rw [hslices]
    exact ⟨vs, _, rfl, by simp, by simp⟩
  · intro contents rest hstr hmax hL1 hL255 hclen hcl hlt h255 hscript
    subst hstr
    unfold readPlcMemory
    rw [hsp]
    simp only [pbind_ok]
    rw [login_unknown Login_PLCDEBUG none s ha hk]
    simp only [pbind_ok]
    simp only [hsp]
    simp only [memTypeParams]
    rw [if_neg (not_lt.mpr hmax)]
    rw [if_neg (by omega)]
    simp only [if_true]
    obtain ⟨vs, s₁, hrun, hvl, htr, hsc⟩ :=
      readStringLoop_run
        (sp.String_Start + (address + (count - 1) * sp.String_Length))
        sp.String_Length hL1 hL255 (List.range count) [] s contents rest
        (by simpa using hclen) hcl (fun i hi => hlt i hi) hscript
    rw [hrun]
    refine ⟨vs, s₁, rfl, ?_, ?_, hsc⟩
    · rw [hvl]
      simp
    · rw [htr]
  · intro hor
    unfold readPlcMemory
    rw [hsp]
    simp only [pbind_ok]
    rw [login_unknown Login_PLCDEBUG none s ha hk]
    simp only [pbind_ok]
    simp only [hsp]
    by_cases hgt : (count : Rat) > (memTypeParams sp memType).2.1
    · rw [if_pos hgt]
      exact ⟨_, rfl, rfl⟩
    · have h255 : count > 255 := hor.resolve_left hgt
      rw [if_neg hgt, if_pos h255]
      exact ⟨_, rfl, rfl⟩

/-- Concrete system parameters used to evaluate `read_plc_memory`. -/
def spExample : SysPar :=
  { Marker_Start := 0, Markers := 100, Input_Start := 2000, Inputs := 64,
    Output_Start := 3000, Outputs := 64, Counter_Start := 4000, Counters := 48,
    Timer_Start := 5000, Timers := 96, Word_Start := 8, Words := 10,
    String_Start := 6000, Strings := 4, String_Length := 16,
    Input_Word_Start := 7000, Input := 8, Output_Word_Start := 7500,
    Output_Words := 8, Max_Block_Length := 1024 }

/-- Counterexample to C5: reading WORD number 1 (element size 2) sends the
absolute address `Word_Start + 1`, not `Word_Start + 1 × 2` as the claim's
formula demands. -/
theorem claim_C5_cex :
    ((readPlcMemory 1 .WORD 1
        { initLSV2 true false none [("S_MB", [7, 0])] with
            sysPar := some spExample }).1 = .ok (.values [.n 7])) ∧
    ((readPlcMemory 1 .WORD 1
        { initLSV2 true false none [("S_MB", [7, 0])] with
            sysPar := some spExample }).2.trace =
      [("R_MB", pack32 (spExample.Word_Start + 1) ++ [2], true)]) ∧
    pack32 (spExample.Word_Start + 1) ++ [2] ≠
      pack32 (spExample.Word_Start + 1 * 2) ++ [2] := by
  refine ⟨?_, ?_, by decide⟩ <;> rfl

/-- Witness for the amended C5: the concrete WORD read sends exactly one
`R_MB` with the unmultiplied absolute address and the two-byte count. -/
theorem claim_C5_witness :
    ∃ vs s₁, readPlcMemory 1 .WORD 1
        { initLSV2 true false none [("S_MB", [7, 0])] with
            sysPar := some spExample } = (.ok (.values vs), s₁) ∧
      s₁.trace = [("R_MB", pack32 (spExample.Word_Start + 1) ++ [2], true)] ∧
      s₁.script = [] := by
  simpa [memTypeParams, spExample] using
    (claim_C5 1 1 .WORD
      { initLSV2 true false none [("S_MB", [7, 0])] with
          sysPar := some spExample }
      spExample rfl (by decide) (by decide)).1 [7, 0] []
      (by decide) (by norm_num [memTypeParams, spExample]) (by decide)
      (by norm_num [memTypeParams, spExample]) (by decide) rfl
      (by norm_num [memTypeParams, spExample])

end PyLSV2
